import Mathlib

/-!
Verification of the transactional ledger and inventory-accounting core of
`enhanced_pos.py` (class `DatabaseManager` and the transaction-entry methods of
`EnhancedPOSApp`), via a shallow embedding into Lean.

Modelling conventions:
* SQLite `REAL` columns are modelled as `ℚ` (the Python code performs exact
  additive arithmetic on these values; binary floating-point rounding is not
  modelled).
* Each SQL table is a `List` of row structures; `SELECT ... WHERE` with
  `fetchone()` is `List.find?` (first match), `UPDATE ... WHERE` is a `List.map`
  that rewrites every matching row, `INSERT` appends.  `AUTOINCREMENT` ids are
  modelled with explicit `next_*_id` counters in the database state.
* The runtime schema introspection in `add_sale` (checks for the optional
  `stock_movements` / `daily_stock` tables, the `current_stock` column and the
  legacy `clients` / `suppliers` tables) is resolved against the canonical
  schema created by `DatabaseManager.create_tables`, where all of these exist
  except the legacy tables: the movement insert, daily-stock upsert, product
  stock update and `customers` credit update branches are always taken.
* `BEGIN TRANSACTION` / `commit` / `rollback`: a failure injected at any point
  before the commit makes `add_sale` hit its `except` branch, which calls
  `conn.rollback()` — discarding every uncommitted write — and returns `None`.
  The model represents this by returning the pre-call state unchanged together
  with `none`.
-/

namespace EnhancedPos

/-- Row of the `products` table. -/
structure Product where
  id : Nat
  name : String
  price : ℚ
  current_stock : ℚ
  active : Bool
deriving DecidableEq, Repr

/-- Row of the `customers` table (customers and suppliers, per `is_supplier`). -/
structure Customer where
  id : Nat
  name : String
  contact : String
  credit_balance : ℚ
  active : Bool
  is_supplier : Bool
deriving DecidableEq, Repr

/-- Row of the `transactions` table. -/
structure TransactionRow where
  id : Nat
  date : String
  customer_id : Nat
  transaction_type : String
  total_amount : ℚ
  cash_received : ℚ
  previous_credit : ℚ
  updated_credit : ℚ
  notes : String
deriving DecidableEq, Repr

/-- Row of the `transaction_items` table. -/
structure TransactionItemRow where
  transaction_id : Nat
  product_id : Nat
  quantity : ℚ
  unit_price : ℚ
  subtotal : ℚ
deriving DecidableEq, Repr

/-- Row of the `stock_movements` table (the free-text `notes` column carries no
information used anywhere and is not modelled). -/
structure StockMovementRow where
  date : String
  product_id : Nat
  quantity_change : ℚ
  transaction_id : Nat
  movement_type : String
deriving DecidableEq, Repr

/-- Row of the `daily_stock` table. -/
structure DailyStockRow where
  date : String
  product_id : Nat
  opening_stock : ℚ
  purchases : ℚ
  sales : ℚ
  adjustments : ℚ
  closing_stock : ℚ
deriving DecidableEq, Repr

/-- The persistent database state. -/
structure DBState where
  products : List Product
  customers : List Customer
  transactions : List TransactionRow
  transaction_items : List TransactionItemRow
  stock_movements : List StockMovementRow
  daily_stock : List DailyStockRow
  next_product_id : Nat
  next_customer_id : Nat
  next_transaction_id : Nat
deriving DecidableEq, Repr

/-- One element of the `items` list passed to `add_sale`
(`{'product_id': ..., 'quantity': ..., 'price': ...}`). -/
structure SaleItem where
  product_id : Nat
  quantity : ℚ
  price : ℚ
deriving DecidableEq, Repr

/-! ### Numeric coercion utilities (`safe_float`, `safe_int`) -/

/-- `re.sub(r'[^\d.-]+', '', s)`: keep only digits, dots and minus signs. -/
def cleanNumeric (s : String) : String :=
  ⟨s.data.filter (fun c => c.isDigit || c = '.' || c = '-')⟩

/-- Whitespace as stripped by Python's `str.strip()` / tolerated by
`float()`. -/
def isPySpace (c : Char) : Bool :=
  c = ' ' || c = '\t' || c = '\n' || c = '\r' || c = '\x0b' || c = '\x0c'

/-- `str.strip()` at character-list level. -/
def trimChars (l : List Char) : List Char :=
  ((l.dropWhile isPySpace).reverse.dropWhile isPySpace).reverse

/-- Decimal value of a digit string. -/
def digitsToNat (l : List Char) : Nat :=
  l.foldl (fun a c => 10 * a + (c.toNat - 48)) 0

/-- Python `float()` on an unsigned decimal literal: digits with an optional
fractional part (`"12"`, `"12."`, `".5"`, `"12.5"`); anything else fails. -/
def parseUnsignedRat (l : List Char) : Option ℚ :=
  let ip := l.takeWhile (fun c => c.isDigit)
  match l.dropWhile (fun c => c.isDigit) with
  | [] => if ip.isEmpty then none else some (digitsToNat ip : ℚ)
  | '.' :: frac =>
    if frac.all (fun c => c.isDigit) && !(ip.isEmpty && frac.isEmpty) then
      some ((digitsToNat ip : ℚ) + (digitsToNat frac : ℚ) / ((10 : ℚ) ^ frac.length))
    else
      none
  | _ => none

/-- Python `float()` on a decimal string: optional sign, then an unsigned
decimal literal.  (Exponent and `inf`/`nan` forms never occur on the strings
this program feeds to `float()` and are not modelled.) -/
def pythonFloat (s : String) : Option ℚ :=
  match trimChars s.data with
  | '-' :: rest => (parseUnsignedRat rest).map (fun x => -x)
  | '+' :: rest => parseUnsignedRat rest
  | l => parseUnsignedRat l

/-- `safe_float(value, default=0.0)`.  The `value` argument is `None` or an
arbitrary string (`str(value)` of whatever was supplied). -/
def safe_float (value : Option String) (default : ℚ) : ℚ :=
  match value with
  | none => default
  | some s =>
    if (trimChars s.data).isEmpty then default
    else
      let cleaned_value := cleanNumeric s
      if cleaned_value ≠ "" ∧ cleaned_value ≠ "-" then
        match pythonFloat cleaned_value with
        | some x => x
        | none => default
      else default

/-- Python `int()` applied to a (rational-valued) float: truncation toward 0. -/
def pythonInt (q : ℚ) : ℤ :=
  if 0 ≤ q then q.floor else -((-q).floor)

/-- `safe_int(value, default=0)`: `int()` of `safe_float(value, default=0.0)`
for non-blank input (`safe_float` never returns `None`, so the `else` branch
returning `default` after the conversion is dead code). -/
def safe_int (value : Option String) (default : ℤ) : ℤ :=
  match value with
  | none => default
  | some s =>
    if (trimChars s.data).isEmpty then default
    else pythonInt (safe_float (some s) 0)

/-- Modelled from the spec: the value a caller would regard as "the number
parsed from the input after stripping non-numeric characters"; `none` when the
input cannot be parsed.  Whether this matches what `safe_float` returns is the
content of the coercion claim. -/
def parsedNumber (value : Option String) : Option ℚ :=
  match value with
  | none => none
  | some s =>
    if (trimChars s.data).isEmpty then none
    else
      let cleaned_value := cleanNumeric s
      if cleaned_value ≠ "" ∧ cleaned_value ≠ "-" then pythonFloat cleaned_value
      else none

/-! ### Master-data upserts (`add_or_update_product`, `add_or_update_customer`) -/

/-- `DatabaseManager.add_or_update_product`:
`INSERT INTO products (name, price) VALUES (?, ?) ON CONFLICT(name) DO UPDATE
SET price = ?`.  New products get the column defaults
(`current_stock DEFAULT 0`, `active DEFAULT 1`). -/
def add_or_update_product (st : DBState) (name : String) (price : ℚ) : DBState :=
  if st.products.any (fun p => p.name == name) then
    { st with products := st.products.map (fun p =>
        if p.name == name then { p with price := price } else p) }
  else
    { st with
      products := st.products ++ [⟨st.next_product_id, name, price, 0, true⟩],
      next_product_id := st.next_product_id + 1 }

/-- `DatabaseManager.add_or_update_customer`:
`INSERT INTO customers (name, contact, credit_balance, is_supplier) VALUES
(?, ?, ?, ?) ON CONFLICT(name) DO UPDATE SET contact = ?, credit_balance = ?,
is_supplier = ?`.  New customers get `active DEFAULT 1`. -/
def add_or_update_customer (st : DBState) (name contact : String)
    (credit_balance : ℚ) (is_supplier : Bool) : DBState :=
  if st.customers.any (fun c => c.name == name) then
    { st with customers := st.customers.map (fun c =>
        if c.name == name then
          { c with contact := contact, credit_balance := credit_balance,
                   is_supplier := is_supplier }
        else c) }
  else
    { st with
      customers := st.customers ++
        [⟨st.next_customer_id, name, contact, credit_balance, true, is_supplier⟩],
      next_customer_id := st.next_customer_id + 1 }

/-! ### `DatabaseManager.add_sale`

The body of `add_sale` between `BEGIN TRANSACTION` and `conn.commit()` is
decomposed into its primitive writes, in source order. -/

/-- `SELECT current_stock FROM products WHERE id = ?` with `fetchone()`:
the first matching row's stock, `0` if there is no row. -/
def stockOf (st : DBState) (product_id : Nat) : ℚ :=
  match st.products.find? (fun p => p.id == product_id) with
  | some p => p.current_stock
  | none => 0

/-- The signed stock delta of one item: `-quantity` for a sale, `+quantity`
otherwise (any non-`'sale'` transaction type takes the purchase branch). -/
def quantityChange (transaction_type : String) (q : ℚ) : ℚ :=
  if transaction_type = "sale" then -q else q

/-- `INSERT INTO transaction_items ...` for one item. -/
def itemRow (transaction_id : Nat) (it : SaleItem) : TransactionItemRow :=
  ⟨transaction_id, it.product_id, it.quantity, it.price, it.quantity * it.price⟩

/-- `INSERT INTO stock_movements ...` row for one item. -/
def movementRow (date transaction_type : String) (transaction_id : Nat)
    (it : SaleItem) : StockMovementRow :=
  ⟨date, it.product_id, quantityChange transaction_type it.quantity,
   transaction_id, transaction_type⟩

/-- Write 1 of each item iteration: insert the transaction-item row. -/
def insertTransactionItem (transaction_id : Nat) (it : SaleItem) (st : DBState) :
    DBState :=
  { st with transaction_items := st.transaction_items ++ [itemRow transaction_id it] }

/-- Write 2 of each item iteration: append the stock movement. -/
def insertStockMovement (date transaction_type : String) (transaction_id : Nat)
    (it : SaleItem) (st : DBState) : DBState :=
  { st with stock_movements :=
      st.stock_movements ++ [movementRow date transaction_type transaction_id it] }

/-- `UPDATE daily_stock SET sales = ?, closing_stock = ? WHERE date = ? AND
product_id = ?` applied to one row: every matching row receives the same two
precomputed values. -/
def setSalesRow (date : String) (pid : Nat) (new_sales new_closing : ℚ)
    (r : DailyStockRow) : DailyStockRow :=
  if r.date == date && r.product_id == pid then
    { r with sales := new_sales, closing_stock := new_closing }
  else r

/-- `UPDATE daily_stock SET purchases = ?, closing_stock = ? WHERE date = ? AND
product_id = ?` applied to one row. -/
def setPurchasesRow (date : String) (pid : Nat) (new_purchases new_closing : ℚ)
    (r : DailyStockRow) : DailyStockRow :=
  if r.date == date && r.product_id == pid then
    { r with purchases := new_purchases, closing_stock := new_closing }
  else r

/-- `UPDATE products SET current_stock = ? WHERE id = ?` applied to one row. -/
def setStockRow (pid : Nat) (new_stock : ℚ) (p : Product) : Product :=
  if p.id == pid then { p with current_stock := new_stock } else p

/-- The list-level effect of the `daily_stock` upsert, given the pre-update
running stock `current_stock` of the item's product.
`SELECT * FROM daily_stock WHERE date = ? AND product_id = ?`; if a row is
found, `sales` (sale) or `purchases` (purchase) is set to the fetched row's
value plus the quantity and `closing_stock` to the post-update running stock;
otherwise a fresh row is inserted with `opening_stock` equal to the pre-update
stock and `adjustments = 0`. -/
def dailyUpsert (date transaction_type : String) (it : SaleItem)
    (current_stock : ℚ) (daily : List DailyStockRow) : List DailyStockRow :=
  let new_stock := current_stock + quantityChange transaction_type it.quantity
  match daily.find? (fun r => r.date == date && r.product_id == it.product_id) with
  | some row =>
    if transaction_type = "sale" then
      daily.map (setSalesRow date it.product_id (row.sales + it.quantity) new_stock)
    else
      daily.map (setPurchasesRow date it.product_id (row.purchases + it.quantity) new_stock)
  | none =>
    if transaction_type = "sale" then
      daily ++ [⟨date, it.product_id, current_stock, 0, it.quantity, 0, new_stock⟩]
    else
      daily ++ [⟨date, it.product_id, current_stock, it.quantity, 0, 0, new_stock⟩]

/-- Write 3 of each item iteration: the `daily_stock` upsert, reading the
product's pre-update running stock. -/
def upsertDailyStock (date transaction_type : String) (it : SaleItem)
    (st : DBState) : DBState :=
  { st with daily_stock :=
      dailyUpsert date transaction_type it (stockOf st it.product_id) st.daily_stock }

/-- Write 4 of each item iteration:
`UPDATE products SET current_stock = ? WHERE id = ?`. -/
def updateProductStock (transaction_type : String) (it : SaleItem) (st : DBState) :
    DBState :=
  let current_stock := stockOf st it.product_id
  let new_stock := current_stock + quantityChange transaction_type it.quantity
  { st with products := st.products.map (setStockRow it.product_id new_stock) }

/-- One iteration of the `for item in items` loop of `add_sale`.  The stock
read happens after the item insert and before any write that touches
`products`, so reading it inside writes 3 and 4 yields the same pre-update
value the source reads once. -/
def applyItemStock (date transaction_type : String) (transaction_id : Nat)
    (st : DBState) (it : SaleItem) : DBState :=
  updateProductStock transaction_type it
    (upsertDailyStock date transaction_type it
      (insertStockMovement date transaction_type transaction_id it
        (insertTransactionItem transaction_id it st)))

/-- The transaction-header row inserted by `add_sale`; `lastrowid` is the
fresh `next_transaction_id`. -/
def headerRow (date : String) (customer_id : Nat) (transaction_type : String)
    (total_amount cash_received previous_credit updated_credit : ℚ)
    (notes : String) (st : DBState) : TransactionRow :=
  ⟨st.next_transaction_id, date, customer_id, transaction_type, total_amount,
   cash_received, previous_credit, updated_credit, notes⟩

/-- First write of `add_sale`: `INSERT INTO transactions ...`. -/
def insertTransactionHeader (date : String) (customer_id : Nat)
    (transaction_type : String)
    (total_amount cash_received previous_credit updated_credit : ℚ)
    (notes : String) (st : DBState) : DBState :=
  { st with
    transactions := st.transactions ++
      [headerRow date customer_id transaction_type total_amount cash_received
        previous_credit updated_credit notes st],
    next_transaction_id := st.next_transaction_id + 1 }

/-- `UPDATE customers SET credit_balance = ? WHERE id = ?` applied to one row. -/
def setCreditRow (cid : Nat) (updated_credit : ℚ) (c : Customer) : Customer :=
  if c.id == cid then { c with credit_balance := updated_credit } else c

/-- Last write of `add_sale`:
`UPDATE customers SET credit_balance = ? WHERE id = ?` (the legacy `clients` /
`suppliers` tables do not exist in the canonical schema). -/
def updateCustomerCredit (customer_id : Nat) (updated_credit : ℚ) (st : DBState) :
    DBState :=
  { st with customers := st.customers.map (setCreditRow customer_id updated_credit) }

/-- The committed effect of `add_sale`: header insert, the item loop, then the
credit update. -/
def add_sale_effects (date : String) (customer_id : Nat) (items : List SaleItem)
    (total_amount cash_received previous_credit updated_credit : ℚ)
    (notes : String) (transaction_type : String) (st : DBState) : DBState :=
  updateCustomerCredit customer_id updated_credit
    (items.foldl (applyItemStock date transaction_type st.next_transaction_id)
      (insertTransactionHeader date customer_id transaction_type total_amount
        cash_received previous_credit updated_credit notes st))

/-- Number of primitive writes executed between `BEGIN TRANSACTION` and
`conn.commit()`: the header, four writes per item, and the credit update. -/
def writeCount (items : List SaleItem) : Nat :=
  1 + 4 * items.length + 1

/-- `DatabaseManager.add_sale`.  `failAfter = some k` injects a storage failure
at the `k`-th primitive write (`k < writeCount items` means the exception fires
before `conn.commit()`, so the `except` branch rolls the open transaction back
and returns `None`); `failAfter = none` is a fault-free run. -/
def add_sale (failAfter : Option Nat) (date : String) (customer_id : Nat)
    (items : List SaleItem)
    (total_amount cash_received previous_credit updated_credit : ℚ)
    (notes : String) (transaction_type : String) (st : DBState) :
    Option Nat × DBState :=
  let committed := add_sale_effects date customer_id items total_amount
    cash_received previous_credit updated_credit notes transaction_type st
  match failAfter with
  | some k =>
    if k < writeCount items then (none, st)
    else (some st.next_transaction_id, committed)
  | none => (some st.next_transaction_id, committed)

/-- `DatabaseManager.add_purchase` forwards to `add_sale` with
`transaction_type = "purchase"`. -/
def add_purchase (failAfter : Option Nat) (date : String) (supplier_id : Nat)
    (items : List SaleItem) (total_amount cash_paid previous_credit updated_credit : ℚ)
    (notes : String) (st : DBState) : Option Nat × DBState :=
  add_sale failAfter date supplier_id items total_amount cash_paid
    previous_credit updated_credit notes "purchase" st

/-! ### `DatabaseManager.calculate_daily_inventory` (InventoryValuation.snapshot) -/

/-- One entry of the per-product `inventory_summary` dictionary. -/
structure InventoryLine where
  product_id : Nat
  product_name : String
  price : ℚ
  opening_stock : ℚ
  purchases : ℚ
  sales : ℚ
  adjustments : ℚ
  closing_stock : ℚ
  net_change : ℚ
deriving DecidableEq, Repr

/-- The value returned by `calculate_daily_inventory`. -/
structure InventoryReport where
  products : List InventoryLine
  total_opening_value : ℚ
  total_closing_value : ℚ
  total_purchased_value : ℚ
  total_sold_value : ℚ
  net_value_change : ℚ
deriving DecidableEq, Repr

/-- `SUM(CASE WHEN sm.movement_type = 'purchase' THEN sm.quantity_change ELSE 0
END)` over the movements of one product on one date. -/
def movementPurchases (ms : List StockMovementRow) (date : String) (pid : Nat) : ℚ :=
  (ms.map (fun m =>
    if m.product_id = pid ∧ m.date = date ∧ m.movement_type = "purchase" then
      m.quantity_change
    else 0)).sum

/-- `SUM(CASE WHEN sm.movement_type = 'sale' THEN -sm.quantity_change ELSE 0
END)` over the movements of one product on one date. -/
def movementSales (ms : List StockMovementRow) (date : String) (pid : Nat) : ℚ :=
  (ms.map (fun m =>
    if m.product_id = pid ∧ m.date = date ∧ m.movement_type = "sale" then
      -m.quantity_change
    else 0)).sum

/-- `SUM(CASE WHEN sm.movement_type NOT IN ('sale', 'purchase') THEN
sm.quantity_change ELSE 0 END)` over the movements of one product on one date. -/
def movementAdjustments (ms : List StockMovementRow) (date : String) (pid : Nat) : ℚ :=
  (ms.map (fun m =>
    if m.product_id = pid ∧ m.date = date ∧
        m.movement_type ≠ "sale" ∧ m.movement_type ≠ "purchase" then
      m.quantity_change
    else 0)).sum

/-- Primary path: one summary line per `daily_stock` row of the requested date,
joined (`JOIN products`) to its product; rows whose product id has no product
row produce nothing.  Iteration order models the `ORDER BY p.name` cursor
order.  (The Python dict is keyed by product id; the `UNIQUE (date,
product_id)` constraint means at most one row per key, so list order is
faithful.) -/
def primaryLine (r : DailyStockRow) (p : Product) : InventoryLine :=
  { product_id := r.product_id, product_name := p.name, price := p.price,
    opening_stock := r.opening_stock, purchases := r.purchases,
    sales := r.sales, adjustments := r.adjustments,
    closing_stock := r.closing_stock,
    net_change := r.closing_stock - r.opening_stock }

/-- The primary path's per-date join of `daily_stock` rows to products. -/
def primaryInventoryLines (st : DBState) (date : String) : List InventoryLine :=
  st.daily_stock.filterMap (fun r =>
    if r.date == date then
      (st.products.find? (fun p => p.id == r.product_id)).map (primaryLine r)
    else none)

/-- Fallback line for one active product: aggregate its movements of the day,
take `current_stock` as `closing_stock` and derive
`opening_stock = closing_stock - (purchases - sales + adjustments)`. -/
def fallbackInventoryLine (ms : List StockMovementRow) (date : String)
    (p : Product) : InventoryLine :=
  let purchases := movementPurchases ms date p.id
  let sales := movementSales ms date p.id
  let adjustments := movementAdjustments ms date p.id
  let closing_stock := p.current_stock
  let opening_stock := closing_stock - (purchases - sales + adjustments)
  { product_id := p.id, product_name := p.name, price := p.price,
    opening_stock := opening_stock, purchases := purchases, sales := sales,
    adjustments := adjustments, closing_stock := closing_stock,
    net_change := closing_stock - opening_stock }

/-- Fallback path (`if not inventory_summary`): one line per active product
(`WHERE p.active = 1`, `LEFT JOIN stock_movements`), in `ORDER BY p.name`
cursor order modelled as list order. -/
def fallbackInventoryLines (st : DBState) (date : String) : List InventoryLine :=
  (st.products.filter (fun p => p.active)).map
    (fallbackInventoryLine st.stock_movements date)

/-- `DatabaseManager.calculate_daily_inventory`. -/
def calculate_daily_inventory (st : DBState) (date : String) : InventoryReport :=
  let lines := primaryInventoryLines st date
  let lines := if lines.isEmpty then fallbackInventoryLines st date else lines
  let total_opening_value := (lines.map (fun l => l.price * l.opening_stock)).sum
  let total_closing_value := (lines.map (fun l => l.price * l.closing_stock)).sum
  let total_purchased_value := (lines.map (fun l => l.price * l.purchases)).sum
  let total_sold_value := (lines.map (fun l => l.price * l.sales)).sum
  { products := lines,
    total_opening_value := total_opening_value,
    total_closing_value := total_closing_value,
    total_purchased_value := total_purchased_value,
    total_sold_value := total_sold_value,
    net_value_change := total_closing_value - total_opening_value }

/-! ### Transaction-entry callers (`EnhancedPOSApp`) -/

/-- `EnhancedPOSApp.calculate_totals`: `total_amount` comes from a bare
`float(...)` whose `ValueError` is swallowed (`none` = no update happens);
`cash_received` and `previous_credit` go through `safe_float(..., 0.0)`. -/
def calculate_totals (total_amount_s cash_received_s previous_credit_s : String) :
    Option ℚ :=
  (pythonFloat total_amount_s).map (fun total_amount =>
    let cash_received := safe_float (some cash_received_s) 0
    let previous_credit := safe_float (some previous_credit_s) 0
    previous_credit + total_amount - cash_received)

/-- `EnhancedPOSApp.calculate_purchase_totals`: same arithmetic with
`cash_paid` in place of `cash_received`. -/
def calculate_purchase_totals (total_amount_s cash_paid_s previous_credit_s : String) :
    Option ℚ :=
  (pythonFloat total_amount_s).map (fun total_amount =>
    let cash_paid := safe_float (some cash_paid_s) 0
    let previous_credit := safe_float (some previous_credit_s) 0
    previous_credit + total_amount - cash_paid)

/-- One row of the items treeview of the sales / purchases entry form. -/
structure TreeItem where
  product_name : String
  quantity : ℚ
  price : ℚ
deriving DecidableEq, Repr

/-- `EnhancedPOSApp.add_item_inline` (the dialog variants perform the same
validation): rejects a missing product name and a non-positive quantity with a
warning (`false`), touching neither the item list nor the database; otherwise
appends the row (`true`). -/
def add_item_inline (tree : List TreeItem) (product_name : String)
    (quantity price : ℚ) : List TreeItem × Bool :=
  if product_name = "" then (tree, false)
  else if quantity ≤ 0 then (tree, false)
  else (tree ++ [⟨product_name, quantity, price⟩], true)

/-- The item list reachable by a sequence of `add_item_inline` attempts on an
initially empty form. -/
def buildTree (attempts : List (String × ℚ × ℚ)) : List TreeItem :=
  attempts.foldl (fun t a => (add_item_inline t a.1 a.2.1 a.2.2).1) []

/-- `EnhancedPOSApp.save_transaction`: validates the customer name and a
non-empty item list before touching the database, resolves the customer and
each product by name (creating missing ones), then calls `add_sale`.  Returns
the possibly-updated state and the transaction id (`none` on rejection or
failure). -/
def save_transaction (st : DBState) (tree : List TreeItem)
    (customer_name : String) (date : String)
    (total_amount cash_received previous_credit updated_credit : ℚ) :
    DBState × Option Nat :=
  if customer_name = "" then (st, none)
  else if tree.isEmpty then (st, none)
  else
    let st := if (st.customers.find? (fun c => c.name == customer_name)).isSome
      then st
      else add_or_update_customer st customer_name "" previous_credit false
    match st.customers.find? (fun c => c.name == customer_name) with
    | none => (st, none)
    | some cust =>
      let st := tree.foldl (fun s it =>
        if (s.products.find? (fun p => p.name == it.product_name)).isSome then s
        else add_or_update_product s it.product_name it.price) st
      let items := tree.filterMap (fun it =>
        (st.products.find? (fun p => p.name == it.product_name)).map (fun p =>
          ({ product_id := p.id, quantity := it.quantity, price := it.price } : SaleItem)))
      let (r, st') := add_sale none date cust.id items total_amount cash_received
        previous_credit updated_credit "" "sale" st
      (st', r)

/-! ### Auxiliary definitions for the claim statements (call sequences,
invariants, and the concrete states used by witnesses and counterexamples) -/

/-- The quantity of `pid` carried by one item towards the signed stock
delta. -/
def itemDelta (ty : String) (pid : Nat) (it : SaleItem) : ℚ :=
  if it.product_id = pid then quantityChange ty it.quantity else 0

/-- A shared concrete database state for the evaluation witnesses: one product
(id 1, price 50, stock 20) and one customer (id 1, balance 100). -/
def sampleState : DBState :=
  { products := [⟨1, "Milk", 50, 20, true⟩],
    customers := [⟨1, "Alice", "", 100, true, false⟩],
    transactions := [], transaction_items := [], stock_movements := [],
    daily_stock := [], next_product_id := 2, next_customer_id := 2,
    next_transaction_id := 1 }

/-- The arguments of one `add_sale` call, apart from its date. -/
structure SaleCall where
  customer_id : Nat
  items : List SaleItem
  total_amount : ℚ
  cash_received : ℚ
  previous_credit : ℚ
  updated_credit : ℚ
  notes : String
  transaction_type : String
deriving DecidableEq, Repr

/-- Run a sequence of fault-free `add_sale` calls sharing one date, in order. -/
def runCalls (date : String) (calls : List SaleCall) (st : DBState) : DBState :=
  calls.foldl (fun s c =>
    (add_sale none date c.customer_id c.items c.total_amount c.cash_received
      c.previous_credit c.updated_credit c.notes c.transaction_type s).2) st

/-- At most one `daily_stock` row per `(date, product)` key (the table's
UNIQUE constraint). -/
def DailyKeysUnique (l : List DailyStockRow) : Prop :=
  ∀ r1 ∈ l, ∀ r2 ∈ l, r1.date = r2.date → r1.product_id = r2.product_id → r1 = r2

/-- The spec's snapshot invariant
`closing_stock = opening_stock + purchases - sales + adjustments` for every
row of the given date. -/
def DailyInvariant (date : String) (l : List DailyStockRow) : Prop :=
  ∀ r ∈ l, r.date = date →
    r.closing_stock = r.opening_stock + r.purchases - r.sales + r.adjustments

/-- The inductive invariant of a single-date run: unique keys, and every row
of that date carries the snapshot invariant with its `closing_stock` equal to
its product's running stock. -/
def StockSync (date : String) (st : DBState) : Prop :=
  DailyKeysUnique st.daily_stock ∧
  ∀ r ∈ st.daily_stock, r.date = date →
    (r.closing_stock = stockOf st r.product_id ∧
     r.closing_stock = r.opening_stock + r.purchases - r.sales + r.adjustments)

/-- Initial state of the cross-date counterexample: one product with stock 10,
one customer, no daily rows. -/
def c5State0 : DBState :=
  { products := [⟨1, "Milk", 1, 10, true⟩],
    customers := [⟨1, "Alice", "", 0, true, false⟩],
    transactions := [], transaction_items := [], stock_movements := [],
    daily_stock := [], next_product_id := 2, next_customer_id := 2,
    next_transaction_id := 1 }

/-- After selling 1 unit on date `"D1"`. -/
def c5State1 : DBState :=
  (add_sale none "D1" 1 [⟨1, 1, 1⟩] 1 1 0 0 "" "sale" c5State0).2

/-- After then purchasing 5 units on date `"D2"`. -/
def c5State2 : DBState :=
  (add_sale none "D2" 1 [⟨1, 5, 1⟩] 5 5 0 0 "" "purchase" c5State1).2

/-- After then selling 1 more unit, backdated to `"D1"`. -/
def c5State3 : DBState :=
  (add_sale none "D1" 1 [⟨1, 1, 1⟩] 1 1 0 0 "" "sale" c5State2).2

/-- The single call used by the invariant witness. -/
def c5WitnessCall : SaleCall := ⟨1, [⟨1, 2, 50⟩], 100, 100, 0, 0, "", "sale"⟩

/-- A sample state that already carries a daily-stock row for `("D", 1)`. -/
def sampleStateWithDaily : DBState :=
  { sampleState with
    products := [⟨1, "Milk", 50, 30, true⟩],
    daily_stock := [⟨"D", 1, 20, 10, 0, 0, 30⟩] }

/-- A state whose `daily_stock` rows for `"D1"` describe an earlier day: a
sale of 1 on `"D1"` (stock 10 → 9) followed by a sale of 1 on `"D2"`
(9 → 8, the current stock). -/
def c6EarlyState : DBState :=
  { products := [⟨1, "A", 1, 8, true⟩],
    customers := [⟨1, "Alice", "", 0, true, false⟩],
    transactions := [], transaction_items := [],
    stock_movements := [⟨"D1", 1, -1, 1, "sale"⟩, ⟨"D2", 1, -1, 2, "sale"⟩],
    daily_stock := [⟨"D1", 1, 10, 0, 1, 0, 9⟩, ⟨"D2", 1, 9, 0, 1, 0, 8⟩],
    next_product_id := 2, next_customer_id := 2, next_transaction_id := 3 }

/-- The counterexample state: product A has one sale movement on `"D"` (its
only movement, so `"D"` is the latest) and a matching daily row; product B is
active with stock 5 and no movements or daily rows at all. -/
def c6StateWith : DBState :=
  { products := [⟨1, "A", 1, 9, true⟩, ⟨2, "B", 2, 5, true⟩],
    customers := [⟨1, "Alice", "", 0, true, false⟩],
    transactions := [], transaction_items := [],
    stock_movements := [⟨"D", 1, -1, 1, "sale"⟩],
    daily_stock := [⟨"D", 1, 10, 0, 1, 0, 9⟩],
    next_product_id := 3, next_customer_id := 2, next_transaction_id := 2 }

/-- The same state with the daily rows dropped, forcing the fallback path. -/
def c6StateWithout : DBState := { c6StateWith with daily_stock := [] }

/-- The fully covered twin of the counterexample state: product B also has a
(zero-activity) daily row for `"D"`, as required by the amended claim. -/
def c6GoodState : DBState :=
  { products := [⟨1, "A", 1, 9, true⟩, ⟨2, "B", 2, 5, true⟩],
    customers := [⟨1, "Alice", "", 0, true, false⟩],
    transactions := [], transaction_items := [],
    stock_movements := [⟨"D", 1, -1, 1, "sale"⟩],
    daily_stock := [⟨"D", 1, 10, 0, 1, 0, 9⟩, ⟨"D", 2, 5, 0, 0, 0, 5⟩],
    next_product_id := 3, next_customer_id := 2, next_transaction_id := 2 }

/-! ### Component lemmas for the primitive writes -/

@[simp]
theorem setStockRow_id (pid : Nat) (ns : ℚ) (p : Product) :
    (setStockRow pid ns p).id = p.id := by
  unfold setStockRow; split <;> rfl

@[simp]
theorem setCreditRow_id (cid : Nat) (u : ℚ) (c : Customer) :
    (setCreditRow cid u c).id = c.id := by
  unfold setCreditRow; split <;> rfl

@[simp]
theorem setSalesRow_date (d : String) (pid : Nat) (s ns : ℚ) (r : DailyStockRow) :
    (setSalesRow d pid s ns r).date = r.date := by
  unfold setSalesRow; split <;> rfl

@[simp]
theorem setSalesRow_product_id (d : String) (pid : Nat) (s ns : ℚ) (r : DailyStockRow) :
    (setSalesRow d pid s ns r).product_id = r.product_id := by
  unfold setSalesRow; split <;> rfl

@[simp]
theorem setPurchasesRow_date (d : String) (pid : Nat) (s ns : ℚ) (r : DailyStockRow) :
    (setPurchasesRow d pid s ns r).date = r.date := by
  unfold setPurchasesRow; split <;> rfl

@[simp]
theorem setPurchasesRow_product_id (d : String) (pid : Nat) (s ns : ℚ)
    (r : DailyStockRow) :
    (setPurchasesRow d pid s ns r).product_id = r.product_id := by
  unfold setPurchasesRow; split <;> rfl

@[simp]
theorem insertTransactionItem_components (tid : Nat) (it : SaleItem) (st : DBState) :
    (insertTransactionItem tid it st).products = st.products ∧
    (insertTransactionItem tid it st).customers = st.customers ∧
    (insertTransactionItem tid it st).transactions = st.transactions ∧
    (insertTransactionItem tid it st).stock_movements = st.stock_movements ∧
    (insertTransactionItem tid it st).daily_stock = st.daily_stock ∧
    (insertTransactionItem tid it st).next_transaction_id = st.next_transaction_id ∧
    (insertTransactionItem tid it st).transaction_items
      = st.transaction_items ++ [itemRow tid it] := by
  simp [insertTransactionItem]

@[simp]
theorem insertStockMovement_components (d ty : String) (tid : Nat) (it : SaleItem)
    (st : DBState) :
    (insertStockMovement d ty tid it st).products = st.products ∧
    (insertStockMovement d ty tid it st).customers = st.customers ∧
    (insertStockMovement d ty tid it st).transactions = st.transactions ∧
    (insertStockMovement d ty tid it st).transaction_items = st.transaction_items ∧
    (insertStockMovement d ty tid it st).daily_stock = st.daily_stock ∧
    (insertStockMovement d ty tid it st).next_transaction_id = st.next_transaction_id ∧
    (insertStockMovement d ty tid it st).stock_movements
      = st.stock_movements ++ [movementRow d ty tid it] := by
  simp [insertStockMovement]

theorem upsertDailyStock_components (d ty : String) (it : SaleItem) (st : DBState) :
    (upsertDailyStock d ty it st).products = st.products ∧
    (upsertDailyStock d ty it st).customers = st.customers ∧
    (upsertDailyStock d ty it st).transactions = st.transactions ∧
    (upsertDailyStock d ty it st).transaction_items = st.transaction_items ∧
    (upsertDailyStock d ty it st).stock_movements = st.stock_movements ∧
    (upsertDailyStock d ty it st).next_transaction_id = st.next_transaction_id :=
  ⟨rfl, rfl, rfl, rfl, rfl, rfl⟩

theorem updateProductStock_components (ty : String) (it : SaleItem) (st : DBState) :
    (updateProductStock ty it st).customers = st.customers ∧
    (updateProductStock ty it st).transactions = st.transactions ∧
    (updateProductStock ty it st).transaction_items = st.transaction_items ∧
    (updateProductStock ty it st).stock_movements = st.stock_movements ∧
    (updateProductStock ty it st).daily_stock = st.daily_stock ∧
    (updateProductStock ty it st).next_transaction_id = st.next_transaction_id := by
  simp [updateProductStock]

/-- The product update rewrites stocks but keeps the id column. -/
theorem updateProductStock_ids (ty : String) (it : SaleItem) (st : DBState) :
    (updateProductStock ty it st).products.map (fun p => p.id)
      = st.products.map (fun p => p.id) := by
  simp only [updateProductStock, List.map_map]
  refine List.map_congr_left fun p _ => ?_
  simp

theorem applyItemStock_products_ids (d ty : String) (tid : Nat) (st : DBState)
    (it : SaleItem) :
    (applyItemStock d ty tid st it).products.map (fun p => p.id)
      = st.products.map (fun p => p.id) := by
  unfold applyItemStock
  rw [updateProductStock_ids, (upsertDailyStock_components _ _ _ _).1,
    (insertStockMovement_components _ _ _ _ _).1,
    (insertTransactionItem_components _ _ _).1]

theorem applyItemStock_customers (d ty : String) (tid : Nat) (st : DBState)
    (it : SaleItem) :
    (applyItemStock d ty tid st it).customers = st.customers := by
  unfold applyItemStock
  rw [(updateProductStock_components _ _ _).1, (upsertDailyStock_components _ _ _ _).2.1,
    (insertStockMovement_components _ _ _ _ _).2.1,
    (insertTransactionItem_components _ _ _).2.1]

theorem applyItemStock_transactions (d ty : String) (tid : Nat) (st : DBState)
    (it : SaleItem) :
    (applyItemStock d ty tid st it).transactions = st.transactions := by
  unfold applyItemStock
  rw [(updateProductStock_components _ _ _).2.1,
    (upsertDailyStock_components _ _ _ _).2.2.1,
    (insertStockMovement_components _ _ _ _ _).2.2.1,
    (insertTransactionItem_components _ _ _).2.2.1]

theorem applyItemStock_next_transaction_id (d ty : String) (tid : Nat)
    (st : DBState) (it : SaleItem) :
    (applyItemStock d ty tid st it).next_transaction_id = st.next_transaction_id := by
  unfold applyItemStock
  rw [(updateProductStock_components _ _ _).2.2.2.2.2,
    (upsertDailyStock_components _ _ _ _).2.2.2.2.2,
    (insertStockMovement_components _ _ _ _ _).2.2.2.2.2.1,
    (insertTransactionItem_components _ _ _).2.2.2.2.2.1]

theorem applyItemStock_transaction_items (d ty : String) (tid : Nat) (st : DBState)
    (it : SaleItem) :
    (applyItemStock d ty tid st it).transaction_items
      = st.transaction_items ++ [itemRow tid it] := by
  unfold applyItemStock
  rw [(updateProductStock_components _ _ _).2.2.1,
    (upsertDailyStock_components _ _ _ _).2.2.2.1,
    (insertStockMovement_components _ _ _ _ _).2.2.2.1,
    (insertTransactionItem_components _ _ _).2.2.2.2.2.2]

theorem applyItemStock_stock_movements (d ty : String) (tid : Nat) (st : DBState)
    (it : SaleItem) :
    (applyItemStock d ty tid st it).stock_movements
      = st.stock_movements ++ [movementRow d ty tid it] := by
  unfold applyItemStock
  rw [(updateProductStock_components _ _ _).2.2.2.1,
    (upsertDailyStock_components _ _ _ _).2.2.2.2.1,
    (insertStockMovement_components _ _ _ _ _).2.2.2.2.2.2,
    (insertTransactionItem_components _ _ _).2.2.2.1]

/-! ### Fold lemmas over the item loop -/

theorem foldl_applyItemStock_customers (d ty : String) (tid : Nat)
    (items : List SaleItem) (st : DBState) :
    (items.foldl (applyItemStock d ty tid) st).customers = st.customers := by
  induction items generalizing st with
  | nil => rfl
  | cons it items ih => rw [List.foldl_cons, ih, applyItemStock_customers]

theorem foldl_applyItemStock_transactions (d ty : String) (tid : Nat)
    (items : List SaleItem) (st : DBState) :
    (items.foldl (applyItemStock d ty tid) st).transactions = st.transactions := by
  induction items generalizing st with
  | nil => rfl
  | cons it items ih => rw [List.foldl_cons, ih, applyItemStock_transactions]

theorem foldl_applyItemStock_next_transaction_id (d ty : String) (tid : Nat)
    (items : List SaleItem) (st : DBState) :
    (items.foldl (applyItemStock d ty tid) st).next_transaction_id
      = st.next_transaction_id := by
  induction items generalizing st with
  | nil => rfl
  | cons it items ih => rw [List.foldl_cons, ih, applyItemStock_next_transaction_id]

theorem foldl_applyItemStock_transaction_items (d ty : String) (tid : Nat)
    (items : List SaleItem) (st : DBState) :
    (items.foldl (applyItemStock d ty tid) st).transaction_items
      = st.transaction_items ++ items.map (itemRow tid) := by
  induction items generalizing st with
  | nil => simp
  | cons it items ih =>
    rw [List.foldl_cons, ih, applyItemStock_transaction_items]
    simp

theorem foldl_applyItemStock_stock_movements (d ty : String) (tid : Nat)
    (items : List SaleItem) (st : DBState) :
    (items.foldl (applyItemStock d ty tid) st).stock_movements
      = st.stock_movements ++ items.map (movementRow d ty tid) := by
  induction items generalizing st with
  | nil => simp
  | cons it items ih =>
    rw [List.foldl_cons, ih, applyItemStock_stock_movements]
    simp

theorem foldl_applyItemStock_products_ids (d ty : String) (tid : Nat)
    (items : List SaleItem) (st : DBState) :
    (items.foldl (applyItemStock d ty tid) st).products.map (fun p => p.id)
      = st.products.map (fun p => p.id) := by
  induction items generalizing st with
  | nil => rfl
  | cons it items ih => rw [List.foldl_cons, ih, applyItemStock_products_ids]

/-! ### Running-stock lemmas -/

/-- Two states with the same `products` column assign every product the same
stock. -/
theorem stockOf_congr {st st' : DBState} (h : st'.products = st.products)
    (pid : Nat) : stockOf st' pid = stockOf st pid := by
  unfold stockOf
  rw [h]

/-- Effect of the product-stock write on the running stock of any product that
exists in `products`. -/
theorem stockOf_updateProductStock (ty : String) (it : SaleItem) (st : DBState)
    (pid : Nat) (h : pid ∈ st.products.map (fun p => p.id)) :
    stockOf (updateProductStock ty it st) pid
      = stockOf st pid
        + (if it.product_id = pid then quantityChange ty it.quantity else 0) := by
  obtain ⟨p0, hp0mem, hp0id⟩ := List.mem_map.1 h
  have hprod : (updateProductStock ty it st).products
      = st.products.map (setStockRow it.product_id
          (stockOf st it.product_id + quantityChange ty it.quantity)) := rfl
  have hcomp : ((fun p => p.id == pid) ∘
      setStockRow it.product_id (stockOf st it.product_id + quantityChange ty it.quantity))
      = fun p => p.id == pid := by
    funext p
    simp [Function.comp]
  cases hf : st.products.find? (fun p => p.id == pid) with
  | none =>
    exfalso
    have hnone := List.find?_eq_none.1 hf p0 hp0mem
    rw [hp0id] at hnone
    exact hnone (by simp)
  | some p1 =>
    have hp1 : p1.id = pid := by simpa using List.find?_some hf
    have hlhs : stockOf (updateProductStock ty it st) pid
        = (setStockRow it.product_id
            (stockOf st it.product_id + quantityChange ty it.quantity) p1).current_stock := by
      unfold stockOf
      rw [hprod, List.find?_map, hcomp, hf]
      rfl
    have hrhs : stockOf st pid = p1.current_stock := by
      unfold stockOf
      rw [hf]
    rw [hlhs, hrhs]
    by_cases hit : it.product_id = pid
    · have hs : stockOf st it.product_id = p1.current_stock := by
        unfold stockOf
        rw [hit, hf]
      simp [setStockRow, hp1, hit, hs, hrhs]
    · have hne : ¬p1.id = it.product_id := fun hh => hit (hp1 ▸ hh.symm)
      simp [setStockRow, hne, hit]

/-- Effect of one item iteration on the running stock of any existing
product. -/
theorem stockOf_applyItemStock (d ty : String) (tid : Nat) (st : DBState)
    (it : SaleItem) (pid : Nat) (h : pid ∈ st.products.map (fun p => p.id)) :
    stockOf (applyItemStock d ty tid st it) pid
      = stockOf st pid
        + (if it.product_id = pid then quantityChange ty it.quantity else 0) := by
  have key : applyItemStock d ty tid st it
      = updateProductStock ty it
          (upsertDailyStock d ty it
            (insertStockMovement d ty tid it (insertTransactionItem tid it st))) := rfl
  have h3 : (upsertDailyStock d ty it
      (insertStockMovement d ty tid it (insertTransactionItem tid it st))).products
      = st.products := by
    rw [(upsertDailyStock_components _ _ _ _).1,
      (insertStockMovement_components _ _ _ _ _).1,
      (insertTransactionItem_components _ _ _).1]
  have hmem3 : pid ∈ (upsertDailyStock d ty it
      (insertStockMovement d ty tid it (insertTransactionItem tid it st))).products.map
        (fun p => p.id) := by
    rw [h3]; exact h
  rw [key, stockOf_updateProductStock _ _ _ _ hmem3, stockOf_congr h3]

/-- Cumulative effect of the item loop on the running stock of an existing
product: the signed sum of the matching quantities. -/
theorem stockOf_foldl_applyItemStock (d ty : String) (tid : Nat)
    (items : List SaleItem) (st : DBState) (pid : Nat)
    (h : pid ∈ st.products.map (fun p => p.id)) :
    stockOf (items.foldl (applyItemStock d ty tid) st) pid
      = stockOf st pid + (items.map (itemDelta ty pid)).sum := by
  induction items generalizing st with
  | nil => simp
  | cons it items ih =>
    have hmem' : pid ∈ (applyItemStock d ty tid st it).products.map (fun p => p.id) := by
      rw [applyItemStock_products_ids]; exact h
    rw [List.foldl_cons, ih _ hmem', stockOf_applyItemStock d ty tid st it pid h]
    simp only [List.map_cons, List.sum_cons, itemDelta]
    ring

/-! ### Effects of a committed `add_sale` -/

theorem updateCustomerCredit_products (cid : Nat) (u : ℚ) (st : DBState) :
    (updateCustomerCredit cid u st).products = st.products := rfl

theorem add_sale_effects_transactions (date : String) (cid : Nat)
    (items : List SaleItem) (t c pc uc : ℚ) (notes ty : String) (st : DBState) :
    (add_sale_effects date cid items t c pc uc notes ty st).transactions
      = st.transactions ++ [headerRow date cid ty t c pc uc notes st] := by
  unfold add_sale_effects updateCustomerCredit
  rw [show (∀ s : DBState, ({ s with customers := s.customers.map (setCreditRow cid uc) } : DBState).transactions = s.transactions) from fun s => rfl]
  rw [foldl_applyItemStock_transactions]
  rfl

theorem add_sale_effects_transaction_items (date : String) (cid : Nat)
    (items : List SaleItem) (t c pc uc : ℚ) (notes ty : String) (st : DBState) :
    (add_sale_effects date cid items t c pc uc notes ty st).transaction_items
      = st.transaction_items ++ items.map (itemRow st.next_transaction_id) := by
  unfold add_sale_effects updateCustomerCredit
  rw [show (∀ s : DBState, ({ s with customers := s.customers.map (setCreditRow cid uc) } : DBState).transaction_items = s.transaction_items) from fun s => rfl]
  rw [foldl_applyItemStock_transaction_items]
  rfl

theorem add_sale_effects_stock_movements (date : String) (cid : Nat)
    (items : List SaleItem) (t c pc uc : ℚ) (notes ty : String) (st : DBState) :
    (add_sale_effects date cid items t c pc uc notes ty st).stock_movements
      = st.stock_movements ++ items.map (movementRow date ty st.next_transaction_id) := by
  unfold add_sale_effects updateCustomerCredit
  rw [show (∀ s : DBState, ({ s with customers := s.customers.map (setCreditRow cid uc) } : DBState).stock_movements = s.stock_movements) from fun s => rfl]
  rw [foldl_applyItemStock_stock_movements]
  rfl

theorem add_sale_effects_customers (date : String) (cid : Nat)
    (items : List SaleItem) (t c pc uc : ℚ) (notes ty : String) (st : DBState) :
    (add_sale_effects date cid items t c pc uc notes ty st).customers
      = st.customers.map (setCreditRow cid uc) := by
  unfold add_sale_effects updateCustomerCredit
  rw [show (∀ s : DBState, ({ s with customers := s.customers.map (setCreditRow cid uc) } : DBState).customers = s.customers.map (setCreditRow cid uc)) from fun s => rfl]
  rw [foldl_applyItemStock_customers]
  rfl

theorem add_sale_effects_stockOf (date : String) (cid : Nat)
    (items : List SaleItem) (t c pc uc : ℚ) (notes ty : String) (st : DBState)
    (pid : Nat) (h : pid ∈ st.products.map (fun p => p.id)) :
    stockOf (add_sale_effects date cid items t c pc uc notes ty st) pid
      = stockOf st pid + (items.map (itemDelta ty pid)).sum := by
  unfold add_sale_effects
  rw [stockOf_congr (updateCustomerCredit_products cid uc _) pid,
    stockOf_foldl_applyItemStock]
  · rfl
  · exact h

/-- For a sale, the signed per-item deltas sum to minus the plain quantity
sum. -/
theorem itemDelta_sale_sum (items : List SaleItem) (pid : Nat) :
    (items.map (itemDelta "sale" pid)).sum
      = -((items.map (fun it => if it.product_id = pid then it.quantity else 0)).sum) := by
  induction items with
  | nil => simp
  | cons it items ih =>
    simp [itemDelta, quantityChange, ih]
    split <;> ring

/-- For a purchase, the signed per-item deltas sum to the plain quantity
sum. -/
theorem itemDelta_purchase_sum (items : List SaleItem) (pid : Nat) :
    (items.map (itemDelta "purchase" pid)).sum
      = (items.map (fun it => if it.product_id = pid then it.quantity else 0)).sum := by
  induction items with
  | nil => simp
  | cons it items ih =>
    have hne : ("purchase" : String) ≠ "sale" := by decide
    simp only [List.map_cons, List.sum_cons, ih, itemDelta, quantityChange, if_neg hne]

/-- Claim C1: every call to `add_sale` is all-or-nothing.  A run with a failure
injected at any write before the commit returns `none` with the database
exactly as before (products, stock_movements, daily_stock and transactions
included); otherwise it returns the fresh transaction id and the committed
state carries all five effects: the header row, one transaction-item row per
item, one stock movement per item, the per-item daily-stock/product-stock
updates (their cumulative effect on every existing product's running stock is
the signed quantity sum), and the customer credit update. -/
theorem add_sale_atomicity (failAfter : Option Nat) (date : String)
    (customer_id : Nat) (items : List SaleItem)
    (total_amount cash_received previous_credit updated_credit : ℚ)
    (notes transaction_type : String) (st : DBState) :
    (add_sale failAfter date customer_id items total_amount cash_received
        previous_credit updated_credit notes transaction_type st = (none, st)
      ∨ add_sale failAfter date customer_id items total_amount cash_received
          previous_credit updated_credit notes transaction_type st
        = (some st.next_transaction_id,
           add_sale_effects date customer_id items total_amount cash_received
             previous_credit updated_credit notes transaction_type st))
    ∧ (add_sale_effects date customer_id items total_amount cash_received
        previous_credit updated_credit notes transaction_type st).transactions
      = st.transactions ++ [headerRow date customer_id transaction_type
          total_amount cash_received previous_credit updated_credit notes st]
    ∧ (add_sale_effects date customer_id items total_amount cash_received
        previous_credit updated_credit notes transaction_type st).transaction_items
      = st.transaction_items ++ items.map (itemRow st.next_transaction_id)
    ∧ (add_sale_effects date customer_id items total_amount cash_received
        previous_credit updated_credit notes transaction_type st).stock_movements
      = st.stock_movements
          ++ items.map (movementRow date transaction_type st.next_transaction_id)
    ∧ (add_sale_effects date customer_id items total_amount cash_received
        previous_credit updated_credit notes transaction_type st).customers
      = st.customers.map (setCreditRow customer_id updated_credit)
    ∧ ∀ pid, pid ∈ st.products.map (fun p => p.id) →
        stockOf (add_sale_effects date customer_id items total_amount
          cash_received previous_credit updated_credit notes transaction_type st) pid
        = stockOf st pid + (items.map (itemDelta transaction_type pid)).sum := by
  refine ⟨?_, add_sale_effects_transactions _ _ _ _ _ _ _ _ _ _,
    add_sale_effects_transaction_items _ _ _ _ _ _ _ _ _ _,
    add_sale_effects_stock_movements _ _ _ _ _ _ _ _ _ _,
    add_sale_effects_customers _ _ _ _ _ _ _ _ _ _,
    fun pid h => add_sale_effects_stockOf _ _ _ _ _ _ _ _ _ _ pid h⟩
  unfold add_sale
  cases failAfter with
  | none => exact Or.inr rfl
  | some k =>
    by_cases hk : k < writeCount items
    · exact Or.inl (by simp [hk])
    · exact Or.inr (by simp [hk])

/-- Evaluation witness for the atomicity theorem at a concrete state. -/
theorem add_sale_atomicity_witness :
    (add_sale (some 0) "D" 1 [⟨1, (5 : ℚ), 50⟩] 250 200 100 150 "" "sale" sampleState
        = (none, sampleState)
      ∨ add_sale (some 0) "D" 1 [⟨1, (5 : ℚ), 50⟩] 250 200 100 150 "" "sale" sampleState
        = (some sampleState.next_transaction_id,
           add_sale_effects "D" 1 [⟨1, (5 : ℚ), 50⟩] 250 200 100 150 "" "sale" sampleState))
    ∧ (1 : Nat) ∈ sampleState.products.map (fun p => p.id)
    ∧ stockOf (add_sale_effects "D" 1 [⟨1, (5 : ℚ), 50⟩] 250 200 100 150 "" "sale"
          sampleState) 1
      = stockOf sampleState 1
          + (([⟨1, (5 : ℚ), 50⟩] : List SaleItem).map (itemDelta "sale" 1)).sum :=
  ⟨(add_sale_atomicity (some 0) "D" 1 [⟨1, (5 : ℚ), 50⟩] 250 200 100 150 "" "sale"
      sampleState).1,
   by decide,
   (add_sale_atomicity (some 0) "D" 1 [⟨1, (5 : ℚ), 50⟩] 250 200 100 150 "" "sale"
      sampleState).2.2.2.2.2 1 (by decide)⟩

/-- Claim C2: a committed sale lowers every referenced product's running stock
by the summed quantity of that product's items, and a committed purchase
raises it by the same sum. -/
theorem add_sale_stock_conservation (date : String) (customer_id : Nat)
    (items : List SaleItem)
    (total_amount cash_received previous_credit updated_credit : ℚ)
    (notes : String) (st : DBState) (pid : Nat)
    (hmem : pid ∈ st.products.map (fun p => p.id)) (hne : items ≠ []) :
    stockOf ((add_sale none date customer_id items total_amount cash_received
        previous_credit updated_credit notes "sale" st).2) pid
      = stockOf st pid
        - (items.map (fun it => if it.product_id = pid then it.quantity else 0)).sum
    ∧ stockOf ((add_sale none date customer_id items total_amount cash_received
        previous_credit updated_credit notes "purchase" st).2) pid
      = stockOf st pid
        + (items.map (fun it => if it.product_id = pid then it.quantity else 0)).sum := by
  constructor
  · have h : (add_sale none date customer_id items total_amount cash_received
        previous_credit updated_credit notes "sale" st).2
        = add_sale_effects date customer_id items total_amount cash_received
            previous_credit updated_credit notes "sale" st := rfl
    rw [h, add_sale_effects_stockOf _ _ _ _ _ _ _ _ _ _ pid hmem,
      itemDelta_sale_sum]
    ring
  · have h : (add_sale none date customer_id items total_amount cash_received
        previous_credit updated_credit notes "purchase" st).2
        = add_sale_effects date customer_id items total_amount cash_received
            previous_credit updated_credit notes "purchase" st := rfl
    rw [h, add_sale_effects_stockOf _ _ _ _ _ _ _ _ _ _ pid hmem,
      itemDelta_purchase_sum]

/-- Evaluation witness for stock conservation: selling 5 units of product 1
takes the sample stock from 20 to 15. -/
theorem add_sale_stock_conservation_witness :
    (1 : Nat) ∈ sampleState.products.map (fun p => p.id)
    ∧ ([⟨1, (5 : ℚ), 50⟩] : List SaleItem) ≠ []
    ∧ stockOf ((add_sale none "D" 1 [⟨1, (5 : ℚ), 50⟩] 250 200 100 150 "" "sale"
        sampleState).2) 1
      = stockOf sampleState 1
        - (([⟨1, (5 : ℚ), 50⟩] : List SaleItem).map
            (fun it => if it.product_id = 1 then it.quantity else 0)).sum :=
  ⟨by decide, by decide,
   (add_sale_stock_conservation "D" 1 [⟨1, (5 : ℚ), 50⟩] 250 200 100 150 ""
      sampleState 1 (by decide) (by decide)).1⟩

/-- The spec's worked example evaluated on `calculate_totals`. -/
theorem calculate_totals_example :
    calculate_totals "250.00" "200.00" "100.00" = some 150 := by
  simp [calculate_totals, safe_float, pythonFloat, parseUnsignedRat, cleanNumeric,
    trimChars, isPySpace, digitsToNat]
  norm_num

/-- The spec's worked example evaluated on `calculate_purchase_totals`. -/
theorem calculate_purchase_totals_example :
    calculate_purchase_totals "250.00" "200.00" "100.00" = some 150 := by
  simp [calculate_purchase_totals, safe_float, pythonFloat, parseUnsignedRat,
    cleanNumeric, trimChars, isPySpace, digitsToNat]
  norm_num

/-- Claim C3: both `calculate_totals` and `calculate_purchase_totals` compute
`updated_credit = previous_credit + total_amount - cash_settled` whenever they
update anything; the spec's numeric example holds; and the updated credit
handed to `add_sale` is persisted verbatim in the transaction header and the
partner's balance. -/
theorem credit_arithmetic :
    (∀ t c p u, calculate_totals t c p = some u →
      ∃ total_amount, pythonFloat t = some total_amount ∧
        u = safe_float (some p) 0 + total_amount - safe_float (some c) 0)
    ∧ (∀ t c p u, calculate_purchase_totals t c p = some u →
      ∃ total_amount, pythonFloat t = some total_amount ∧
        u = safe_float (some p) 0 + total_amount - safe_float (some c) 0)
    ∧ calculate_totals "250.00" "200.00" "100.00" = some 150
    ∧ calculate_purchase_totals "250.00" "200.00" "100.00" = some 150
    ∧ ∀ (date : String) (cid : Nat) (items : List SaleItem) (t c p u : ℚ)
        (notes ty : String) (st : DBState),
        (add_sale none date cid items t c p u notes ty st).2.transactions
          = st.transactions ++ [headerRow date cid ty t c p u notes st]
        ∧ (add_sale none date cid items t c p u notes ty st).2.customers
          = st.customers.map (setCreditRow cid u) := by
  refine ⟨?_, ?_, calculate_totals_example, calculate_purchase_totals_example, ?_⟩
  · intro t c p u hu
    unfold calculate_totals at hu
    cases ht : pythonFloat t with
    | none => rw [ht] at hu; simp at hu
    | some total =>
      rw [ht] at hu
      simp only [Option.map_some] at hu
      exact ⟨total, rfl, (Option.some.injEq _ _ ▸ hu).symm⟩
  · intro t c p u hu
    unfold calculate_purchase_totals at hu
    cases ht : pythonFloat t with
    | none => rw [ht] at hu; simp at hu
    | some total =>
      rw [ht] at hu
      simp only [Option.map_some] at hu
      exact ⟨total, rfl, (Option.some.injEq _ _ ▸ hu).symm⟩
  · intro date cid items t c p u notes ty st
    exact ⟨add_sale_effects_transactions _ _ _ _ _ _ _ _ _ _,
      add_sale_effects_customers _ _ _ _ _ _ _ _ _ _⟩

/-- Evaluation witness for the credit arithmetic at the spec's example
(previous 100.00, total 250.00, cash 200.00 gives 150.00). -/
theorem credit_arithmetic_witness :
    calculate_totals "250.00" "200.00" "100.00" = some 150
    ∧ ∃ total_amount, pythonFloat "250.00" = some total_amount ∧
        (150 : ℚ) = safe_float (some "100.00") 0 + total_amount
          - safe_float (some "200.00") 0 :=
  ⟨calculate_totals_example,
   credit_arithmetic.1 "250.00" "200.00" "100.00" 150 calculate_totals_example⟩

/-- Claim C10: upserting an existing partner name rewrites that partner's
`contact`, `credit_balance` and `is_supplier` columns to exactly the supplied
values (id, name and active flag are kept), so an upsert with the default
balance 0 resets a previously accumulated balance. -/
theorem add_or_update_customer_overwrites (st : DBState) (name contact : String)
    (credit_balance : ℚ) (is_supplier : Bool) (c0 : Customer)
    (h0 : c0 ∈ st.customers) (hname : c0.name = name) :
    (add_or_update_customer st name contact credit_balance is_supplier).customers
      = st.customers.map (fun c =>
          if c.name == name then
            { c with contact := contact, credit_balance := credit_balance,
                     is_supplier := is_supplier }
          else c)
    ∧ (fun c =>
          if c.name == name then
            { c with contact := contact, credit_balance := credit_balance,
                     is_supplier := is_supplier }
          else c) c0
      = ⟨c0.id, c0.name, contact, credit_balance, c0.active, is_supplier⟩
    ∧ (add_or_update_customer st name contact credit_balance is_supplier).products
      = st.products := by
  have hany : st.customers.any (fun c => c.name == name) = true :=
    List.any_eq_true.2 ⟨c0, h0, by simp [hname]⟩
  refine ⟨?_, by simp [hname], ?_⟩
  · unfold add_or_update_customer
    rw [if_pos hany]
  · unfold add_or_update_customer
    rw [if_pos hany]

/-- Evaluation witness for the partner upsert: re-upserting "Alice" (balance
100 in the sample state) with the default balance 0 leaves her row with
balance 0. -/
theorem add_or_update_customer_overwrites_witness :
    (⟨1, "Alice", "", 100, true, false⟩ : Customer) ∈ sampleState.customers
    ∧ (add_or_update_customer sampleState "Alice" "" 0 false).customers
      = sampleState.customers.map (fun c =>
          if c.name == "Alice" then
            { c with contact := "", credit_balance := 0, is_supplier := false }
          else c)
    ∧ (add_or_update_customer sampleState "Alice" "" 0 false).customers
      = [⟨1, "Alice", "", 0, true, false⟩] :=
  ⟨by decide,
   (add_or_update_customer_overwrites sampleState "Alice" "" 0 false
      ⟨1, "Alice", "", 100, true, false⟩ (by decide) rfl).1,
   by decide⟩

/-- Claim C4: the daily-stock upsert.  With no row for `(date, product)` a row
is created with `opening_stock` equal to the pre-update running stock, the
quantity in `sales` (sale) or `purchases` (purchase), zero elsewhere, and
`closing_stock` equal to the post-update running stock; with an existing row,
every row of that key gets only the matching accumulator bumped by the
quantity and `closing_stock` overwritten with the post-update running stock
(never recomputed from the accumulated fields). -/
theorem upsertDailyStock_spec (date : String) (it : SaleItem) (st : DBState) :
    (st.daily_stock.find?
        (fun r => r.date == date && r.product_id == it.product_id) = none →
      (upsertDailyStock date "sale" it st).daily_stock
        = st.daily_stock ++
            [⟨date, it.product_id, stockOf st it.product_id, 0, it.quantity, 0,
              stockOf st it.product_id - it.quantity⟩]
      ∧ (upsertDailyStock date "purchase" it st).daily_stock
        = st.daily_stock ++
            [⟨date, it.product_id, stockOf st it.product_id, it.quantity, 0, 0,
              stockOf st it.product_id + it.quantity⟩])
    ∧ ∀ row, st.daily_stock.find?
        (fun r => r.date == date && r.product_id == it.product_id) = some row →
      (upsertDailyStock date "sale" it st).daily_stock
        = st.daily_stock.map (setSalesRow date it.product_id
            (row.sales + it.quantity) (stockOf st it.product_id - it.quantity))
      ∧ (upsertDailyStock date "purchase" it st).daily_stock
        = st.daily_stock.map (setPurchasesRow date it.product_id
            (row.purchases + it.quantity) (stockOf st it.product_id + it.quantity)) := by
  constructor
  · intro hnone
    constructor
    · unfold upsertDailyStock dailyUpsert
      rw [hnone]
      simp [quantityChange, sub_eq_add_neg]
    · unfold upsertDailyStock dailyUpsert
      rw [hnone]
      simp [quantityChange]
  · intro row hsome
    constructor
    · unfold upsertDailyStock dailyUpsert
      rw [hsome]
      simp [quantityChange, sub_eq_add_neg]
    · unfold upsertDailyStock dailyUpsert
      rw [hsome]
      simp [quantityChange]

/-- `safe_float` returns exactly the parsed value, and its `default` whenever
no value can be parsed. -/
theorem safe_float_eq_parsedNumber (v : Option String) (d : ℚ) :
    safe_float v d = (parsedNumber v).getD d := by
  unfold safe_float parsedNumber
  cases v with
  | none => rfl
  | some s =>
    by_cases h1 : (trimChars s.data).isEmpty
    · simp [h1]
    · by_cases h2 : cleanNumeric s ≠ "" ∧ cleanNumeric s ≠ "-"
      · simp only [h1, if_false, if_pos h2]
        cases pythonFloat (cleanNumeric s) <;> simp
      · simp [h1, h2]

/-- Claim C9, counterexample: `safe_int` does not fall back to its own default
on a non-blank unparseable input — `safe_int("abc", 7)` is `0`, not `7`. -/
theorem safe_int_default_cex :
    parsedNumber (some "abc") = none
    ∧ safe_int (some "abc") 7 = 0
    ∧ (0 : ℤ) ≠ 7 := by
  refine ⟨by decide, ?_, by decide⟩
  show safe_int (some "abc") 7 = 0
  simp [safe_int, safe_float, pythonInt, parsedNumber, pythonFloat, cleanNumeric,
    trimChars, isPySpace, parseUnsignedRat]
  decide

/-- Claim C9 as amended: `safe_float` is total and returns the parsed value,
or the supplied default whenever the input (after `None`/blank filtering and
stripping of non-numeric characters) cannot be parsed; `safe_int` is total and
converts via `safe_float(value, 0.0)` truncated to an integer, falling back to
its own default only for `None` or blank input — for non-blank unparseable
input it returns `0`, whatever its default. -/
theorem safe_coercion_amended :
    (∀ v d, safe_float v d = (parsedNumber v).getD d)
    ∧ (∀ d, safe_int none d = d)
    ∧ (∀ s d, (trimChars s.data).isEmpty → safe_int (some s) d = d)
    ∧ (∀ s d, ¬(trimChars s.data).isEmpty →
        safe_int (some s) d = pythonInt (safe_float (some s) 0))
    ∧ (∀ s d, ¬(trimChars s.data).isEmpty → parsedNumber (some s) = none →
        safe_int (some s) d = 0) := by
  refine ⟨safe_float_eq_parsedNumber, fun d => rfl, ?_, ?_, ?_⟩
  · intro s d h
    simp [safe_int, h]
  · intro s d h
    simp [safe_int, h]
  · intro s d h hparse
    have h0 : safe_float (some s) 0 = 0 := by
      rw [safe_float_eq_parsedNumber, hparse]
      rfl
    simp [safe_int, h, h0, pythonInt]
    decide

/-- Evaluation witness for the amended coercion claim: blank input respects
`safe_int`'s default, while `"abc"` is unparseable and yields `0`. -/
theorem safe_coercion_amended_witness :
    safe_float (some "$12") 3 = (parsedNumber (some "$12")).getD 3
    ∧ safe_int (some "  ") 7 = 7
    ∧ ¬(trimChars "abc".data).isEmpty
    ∧ parsedNumber (some "abc") = none
    ∧ safe_int (some "abc") 7 = 0 :=
  ⟨safe_coercion_amended.1 (some "$12") 3,
   safe_coercion_amended.2.2.1 "  " 7 (by decide),
   by decide, by decide,
   safe_coercion_amended.2.2.2.2 "abc" 7 (by decide) (by decide)⟩

/-- Items reachable through `add_item_inline` from an initial tree of
positive-quantity items all have positive quantity. -/
theorem buildTree_aux (attempts : List (String × ℚ × ℚ)) (t0 : List TreeItem)
    (h0 : ∀ it ∈ t0, 0 < it.quantity) :
    ∀ it ∈ attempts.foldl (fun t a => (add_item_inline t a.1 a.2.1 a.2.2).1) t0,
      0 < it.quantity := by
  induction attempts generalizing t0 with
  | nil => exact h0
  | cons a rest ih =>
    rw [List.foldl_cons]
    refine ih _ ?_
    intro it hit
    unfold add_item_inline at hit
    by_cases hn : a.1 = ""
    · rw [if_pos hn] at hit
      exact h0 it hit
    · rw [if_neg hn] at hit
      by_cases hq : a.2.1 ≤ 0
      · rw [if_pos hq] at hit
        exact h0 it hit
      · rw [if_neg hq] at hit
        rcases List.mem_append.1 hit with hold | hnew
        · exact h0 it hold
        · rw [List.mem_singleton.1 hnew]
          exact lt_of_not_le hq

/-- Claim C8: a save attempt with an empty item list is rejected before any
database access (the state comes back untouched, with no transaction id), an
item-entry attempt with non-positive quantity is rejected without touching the
item list, and consequently every item list the entry form can hand to
`save_transaction` contains only positive quantities. -/
theorem validation_before_persistence :
    (∀ (st : DBState) (customer_name date : String) (t c p u : ℚ),
      save_transaction st [] customer_name date t c p u = (st, none))
    ∧ (∀ (tree : List TreeItem) (product_name : String) (q price : ℚ),
        q ≤ 0 → add_item_inline tree product_name q price = (tree, false))
    ∧ (∀ attempts, ∀ it ∈ buildTree attempts, 0 < it.quantity) := by
  refine ⟨?_, ?_, ?_⟩
  · intro st customer_name date t c p u
    unfold save_transaction
    by_cases hn : customer_name = "" <;> simp [hn]
  · intro tree product_name q price hq
    unfold add_item_inline
    by_cases hn : product_name = "" <;> simp [hn, hq]
  · intro attempts
    exact buildTree_aux attempts [] (by simp)

/-- Evaluation witness for the validation claim: a concrete empty-list save is
rejected with the sample state untouched, a quantity of `-1` is rejected at
item entry, and a concretely built tree has positive quantities. -/
theorem validation_before_persistence_witness :
    save_transaction sampleState [] "Alice" "D" 0 0 0 0 = (sampleState, none)
    ∧ (-1 : ℚ) ≤ 0
    ∧ add_item_inline [] "Milk" (-1) 50 = ([], false)
    ∧ ∀ it ∈ buildTree [("Milk", 2, 50)], 0 < it.quantity :=
  ⟨validation_before_persistence.1 sampleState "Alice" "D" 0 0 0 0,
   by norm_num,
   validation_before_persistence.2.1 [] "Milk" (-1) 50 (by norm_num),
   validation_before_persistence.2.2 [("Milk", 2, 50)]⟩

/-! ### Duplicate-line algebra (two lines of one product versus one combined
line) -/

/-- The signed delta is additive in the quantity. -/
theorem quantityChange_add (ty : String) (a b : ℚ) :
    quantityChange ty (a + b) = quantityChange ty a + quantityChange ty b := by
  unfold quantityChange
  split <;> ring

/-- The `products` column after one item iteration, in closed form. -/
theorem applyItemStock_products_eq (d ty : String) (tid : Nat) (st : DBState)
    (it : SaleItem) :
    (applyItemStock d ty tid st it).products
      = st.products.map (setStockRow it.product_id
          (stockOf st it.product_id + quantityChange ty it.quantity)) := rfl

/-- The `daily_stock` column after one item iteration, in closed form. -/
theorem applyItemStock_daily_eq (d ty : String) (tid : Nat) (st : DBState)
    (it : SaleItem) :
    (applyItemStock d ty tid st it).daily_stock
      = dailyUpsert d ty it (stockOf st it.product_id) st.daily_stock := rfl

/-- One item iteration reads only the `products` and `daily_stock` columns to
produce its new `products` and `daily_stock` columns. -/
theorem applyItemStock_congr (d ty : String) (tid1 tid2 : Nat) {st1 st2 : DBState}
    (hp : st1.products = st2.products) (hd : st1.daily_stock = st2.daily_stock)
    (it : SaleItem) :
    (applyItemStock d ty tid1 st1 it).products
        = (applyItemStock d ty tid2 st2 it).products
    ∧ (applyItemStock d ty tid1 st1 it).daily_stock
        = (applyItemStock d ty tid2 st2 it).daily_stock := by
  constructor
  · rw [applyItemStock_products_eq, applyItemStock_products_eq, hp,
      stockOf_congr hp]
  · rw [applyItemStock_daily_eq, applyItemStock_daily_eq, hd, stockOf_congr hp]

/-- The item loop preserves agreement of the `products` and `daily_stock`
columns between two runs. -/
theorem foldl_applyItemStock_congr (d ty : String) (tid1 tid2 : Nat)
    (items : List SaleItem) {st1 st2 : DBState}
    (hp : st1.products = st2.products) (hd : st1.daily_stock = st2.daily_stock) :
    (items.foldl (applyItemStock d ty tid1) st1).products
        = (items.foldl (applyItemStock d ty tid2) st2).products
    ∧ (items.foldl (applyItemStock d ty tid1) st1).daily_stock
        = (items.foldl (applyItemStock d ty tid2) st2).daily_stock := by
  induction items generalizing st1 st2 with
  | nil => exact ⟨hp, hd⟩
  | cons it rest ih =>
    rw [List.foldl_cons, List.foldl_cons]
    obtain ⟨hp', hd'⟩ := applyItemStock_congr d ty tid1 tid2 hp hd it
    exact ih hp' hd'

/-- Re-updating the same product's stock keeps only the last value. -/
theorem setStockRow_comp (pid : Nat) (a b : ℚ) (p : Product) :
    setStockRow pid b (setStockRow pid a p) = setStockRow pid b p := by
  unfold setStockRow
  by_cases h : p.id = pid <;> simp [h]

/-- Two successive lines of the same product act on `products` like one line
with the combined quantity. -/
theorem pair_products (d ty : String) (tid : Nat) (st : DBState) (pid : Nat)
    (q1 q2 pr1 pr2 pr3 : ℚ) (hmem : pid ∈ st.products.map (fun p => p.id)) :
    (applyItemStock d ty tid (applyItemStock d ty tid st ⟨pid, q1, pr1⟩)
        ⟨pid, q2, pr2⟩).products
      = (applyItemStock d ty tid st ⟨pid, q1 + q2, pr3⟩).products := by
  rw [applyItemStock_products_eq, applyItemStock_products_eq,
    applyItemStock_products_eq]
  dsimp only
  rw [stockOf_applyItemStock d ty tid st ⟨pid, q1, pr1⟩ pid hmem]
  dsimp only
  rw [if_pos rfl, List.map_map]
  refine List.map_congr_left fun p _ => ?_
  simp only [Function.comp_apply, setStockRow_comp]
  rw [quantityChange_add, ← add_assoc]

/-- `setSalesRow` leaves rows of other `(date, product)` keys alone. -/
theorem setSalesRow_not_matching {d : String} {pid : Nat} {s ns : ℚ}
    {r : DailyStockRow} (h : ¬(r.date == d && r.product_id == pid) = true) :
    setSalesRow d pid s ns r = r := by
  unfold setSalesRow
  rw [if_neg h]

/-- `setPurchasesRow` leaves rows of other `(date, product)` keys alone. -/
theorem setPurchasesRow_not_matching {d : String} {pid : Nat} {s ns : ℚ}
    {r : DailyStockRow} (h : ¬(r.date == d && r.product_id == pid) = true) :
    setPurchasesRow d pid s ns r = r := by
  unfold setPurchasesRow
  rw [if_neg h]

/-- The upsert's row predicate is blind to a `setSalesRow` rewrite. -/
theorem setSalesRow_pred (d : String) (pid : Nat) (s ns : ℚ) :
    ((fun r => r.date == d && r.product_id == pid) ∘ setSalesRow d pid s ns)
      = fun r => r.date == d && r.product_id == pid := by
  funext r
  simp [Function.comp]

/-- The upsert's row predicate is blind to a `setPurchasesRow` rewrite. -/
theorem setPurchasesRow_pred (d : String) (pid : Nat) (s ns : ℚ) :
    ((fun r => r.date == d && r.product_id == pid) ∘ setPurchasesRow d pid s ns)
      = fun r => r.date == d && r.product_id == pid := by
  funext r
  simp [Function.comp]

/-- `setSalesRow` on a row of the matching key. -/
theorem setSalesRow_matching {d : String} {pid : Nat} {s ns : ℚ}
    {r : DailyStockRow} (h : (r.date == d && r.product_id == pid) = true) :
    setSalesRow d pid s ns r = { r with sales := s, closing_stock := ns } := by
  unfold setSalesRow
  rw [if_pos h]

/-- `setPurchasesRow` on a row of the matching key. -/
theorem setPurchasesRow_matching {d : String} {pid : Nat} {s ns : ℚ}
    {r : DailyStockRow} (h : (r.date == d && r.product_id == pid) = true) :
    setPurchasesRow d pid s ns r = { r with purchases := s, closing_stock := ns } := by
  unfold setPurchasesRow
  rw [if_pos h]

/-- The sale insert branch of the daily-stock upsert, as an equation. -/
theorem dailyUpsert_sale_none (d : String) (it : SaleItem) (cs : ℚ)
    (D : List DailyStockRow)
    (hf : D.find? (fun r => r.date == d && r.product_id == it.product_id) = none) :
    dailyUpsert d "sale" it cs D
      = D ++ [⟨d, it.product_id, cs, 0, it.quantity, 0,
          cs + quantityChange "sale" it.quantity⟩] := by
  unfold dailyUpsert
  rw [hf]
  rfl

/-- The non-sale insert branch of the daily-stock upsert, as an equation. -/
theorem dailyUpsert_other_none (d ty : String) (hty : ¬ty = "sale")
    (it : SaleItem) (cs : ℚ) (D : List DailyStockRow)
    (hf : D.find? (fun r => r.date == d && r.product_id == it.product_id) = none) :
    dailyUpsert d ty it cs D
      = D ++ [⟨d, it.product_id, cs, it.quantity, 0, 0,
          cs + quantityChange ty it.quantity⟩] := by
  unfold dailyUpsert
  rw [hf]
  dsimp only
  rw [if_neg hty]

/-- The sale update branch of the daily-stock upsert, as an equation. -/
theorem dailyUpsert_sale_some (d : String) (it : SaleItem) (cs : ℚ)
    (D : List DailyStockRow) (row : DailyStockRow)
    (hf : D.find? (fun r => r.date == d && r.product_id == it.product_id)
      = some row) :
    dailyUpsert d "sale" it cs D
      = D.map (setSalesRow d it.product_id (row.sales + it.quantity)
          (cs + quantityChange "sale" it.quantity)) := by
  unfold dailyUpsert
  rw [hf]
  rfl

/-- The non-sale update branch of the daily-stock upsert, as an equation. -/
theorem dailyUpsert_other_some (d ty : String) (hty : ¬ty = "sale")
    (it : SaleItem) (cs : ℚ) (D : List DailyStockRow) (row : DailyStockRow)
    (hf : D.find? (fun r => r.date == d && r.product_id == it.product_id)
      = some row) :
    dailyUpsert d ty it cs D
      = D.map (setPurchasesRow d it.product_id (row.purchases + it.quantity)
          (cs + quantityChange ty it.quantity)) := by
  unfold dailyUpsert
  rw [hf]
  dsimp only
  rw [if_neg hty]

/-- Two successive lines of one product act on a daily-stock list like one
line with the combined quantity (any transaction type; non-sale types all take
the purchase branch). -/
theorem dailyUpsert_pair (d ty : String) (pid : Nat) (q1 q2 pr1 pr2 pr3 cs : ℚ)
    (D : List DailyStockRow) :
    dailyUpsert d ty ⟨pid, q2, pr2⟩ (cs + quantityChange ty q1)
        (dailyUpsert d ty ⟨pid, q1, pr1⟩ cs D)
      = dailyUpsert d ty ⟨pid, q1 + q2, pr3⟩ cs D := by
  by_cases hty : ty = "sale"
  · subst hty
    cases hf : D.find? (fun r => r.date == d && r.product_id == pid) with
    | none =>
      rw [dailyUpsert_sale_none d ⟨pid, q1, pr1⟩ cs D hf]
      dsimp only
      have hfind2 : (D ++ [(⟨d, pid, cs, 0, q1, 0,
            cs + quantityChange "sale" q1⟩ : DailyStockRow)]).find?
          (fun r => r.date == d && r.product_id == pid)
          = some ⟨d, pid, cs, 0, q1, 0, cs + quantityChange "sale" q1⟩ := by
        simp [List.find?_append, hf]
      rw [dailyUpsert_sale_some d ⟨pid, q2, pr2⟩ (cs + quantityChange "sale" q1)
          _ _ hfind2,
        dailyUpsert_sale_none d ⟨pid, q1 + q2, pr3⟩ cs D hf]
      dsimp only
      rw [List.map_append]
      have hD : D.map (setSalesRow d pid (q1 + q2)
          (cs + quantityChange "sale" q1 + quantityChange "sale" q2)) = D.map id := by
        refine List.map_congr_left fun r hr => ?_
        exact setSalesRow_not_matching (List.find?_eq_none.1 hf r hr)
      rw [hD, List.map_id]
      simp [setSalesRow, quantityChange_add, add_assoc]
    | some row0 =>
      rw [dailyUpsert_sale_some d ⟨pid, q1, pr1⟩ cs D row0 hf]
      dsimp only
      have hmatch0 : (row0.date == d && row0.product_id == pid) = true := by
        simpa using List.find?_some hf
      have hfind2 : (D.map (setSalesRow d pid (row0.sales + q1)
            (cs + quantityChange "sale" q1))).find?
          (fun r => r.date == d && r.product_id == pid)
          = some (setSalesRow d pid (row0.sales + q1)
              (cs + quantityChange "sale" q1) row0) := by
        rw [List.find?_map, setSalesRow_pred, hf]
        rfl
      rw [dailyUpsert_sale_some d ⟨pid, q2, pr2⟩ (cs + quantityChange "sale" q1)
          _ _ hfind2,
        dailyUpsert_sale_some d ⟨pid, q1 + q2, pr3⟩ cs D row0 hf]
      dsimp only
      rw [List.map_map]
      refine List.map_congr_left fun r hr => ?_
      by_cases hm : (r.date == d && r.product_id == pid) = true
      · simp [Function.comp, setSalesRow, hm, hmatch0, quantityChange_add,
          add_assoc]
      · simp [Function.comp, setSalesRow, hm]
  · cases hf : D.find? (fun r => r.date == d && r.product_id == pid) with
    | none =>
      rw [dailyUpsert_other_none d ty hty ⟨pid, q1, pr1⟩ cs D hf]
      dsimp only
      have hfind2 : (D ++ [(⟨d, pid, cs, q1, 0, 0,
            cs + quantityChange ty q1⟩ : DailyStockRow)]).find?
          (fun r => r.date == d && r.product_id == pid)
          = some ⟨d, pid, cs, q1, 0, 0, cs + quantityChange ty q1⟩ := by
        simp [List.find?_append, hf]
      rw [dailyUpsert_other_some d ty hty ⟨pid, q2, pr2⟩
          (cs + quantityChange ty q1) _ _ hfind2,
        dailyUpsert_other_none d ty hty ⟨pid, q1 + q2, pr3⟩ cs D hf]
      dsimp only
      rw [List.map_append]
      have hD : D.map (setPurchasesRow d pid (q1 + q2)
          (cs + quantityChange ty q1 + quantityChange ty q2)) = D.map id := by
        refine List.map_congr_left fun r hr => ?_
        exact setPurchasesRow_not_matching (List.find?_eq_none.1 hf r hr)
      rw [hD, List.map_id]
      simp [setPurchasesRow, quantityChange_add, add_assoc]
    | some row0 =>
      rw [dailyUpsert_other_some d ty hty ⟨pid, q1, pr1⟩ cs D row0 hf]
      dsimp only
      have hmatch0 : (row0.date == d && row0.product_id == pid) = true := by
        simpa using List.find?_some hf
      have hfind2 : (D.map (setPurchasesRow d pid (row0.purchases + q1)
            (cs + quantityChange ty q1))).find?
          (fun r => r.date == d && r.product_id == pid)
          = some (setPurchasesRow d pid (row0.purchases + q1)
              (cs + quantityChange ty q1) row0) := by
        rw [List.find?_map, setPurchasesRow_pred, hf]
        rfl
      rw [dailyUpsert_other_some d ty hty ⟨pid, q2, pr2⟩
          (cs + quantityChange ty q1) _ _ hfind2,
        dailyUpsert_other_some d ty hty ⟨pid, q1 + q2, pr3⟩ cs D row0 hf]
      dsimp only
      rw [List.map_map]
      refine List.map_congr_left fun r hr => ?_
      by_cases hm : (r.date == d && r.product_id == pid) = true
      · simp [Function.comp, setPurchasesRow, hm, hmatch0, quantityChange_add,
          add_assoc]
      · simp [Function.comp, setPurchasesRow, hm]

/-- Two successive lines of the same product act on `daily_stock` like one
line with the combined quantity. -/
theorem pair_daily (d ty : String) (tid : Nat) (st : DBState) (pid : Nat)
    (q1 q2 pr1 pr2 pr3 : ℚ) (hmem : pid ∈ st.products.map (fun p => p.id)) :
    (applyItemStock d ty tid (applyItemStock d ty tid st ⟨pid, q1, pr1⟩)
        ⟨pid, q2, pr2⟩).daily_stock
      = (applyItemStock d ty tid st ⟨pid, q1 + q2, pr3⟩).daily_stock := by
  rw [applyItemStock_daily_eq, applyItemStock_daily_eq, applyItemStock_daily_eq]
  dsimp only
  rw [stockOf_applyItemStock d ty tid st ⟨pid, q1, pr1⟩ pid hmem]
  dsimp only
  rw [if_pos rfl]
  exact dailyUpsert_pair d ty pid q1 q2 pr1 pr2 pr3 (stockOf st pid) st.daily_stock

/-- Claim C7: a transaction listing the same product twice (quantities `q1`
and `q2`, at any unit prices) leaves `products` and `daily_stock` — and the
header and partner tables — exactly as a transaction with a single combined
line of quantity `q1 + q2` would; only the item and movement logs differ. -/
theorem duplicate_product_lines (date : String) (customer_id : Nat)
    (A B : List SaleItem) (pid : Nat) (q1 q2 pr1 pr2 pr3 : ℚ)
    (total_amount cash_received previous_credit updated_credit : ℚ)
    (notes transaction_type : String) (st : DBState)
    (hmem : pid ∈ st.products.map (fun p => p.id)) :
    ((add_sale none date customer_id (A ++ [⟨pid, q1, pr1⟩, ⟨pid, q2, pr2⟩] ++ B)
        total_amount cash_received previous_credit updated_credit notes
        transaction_type st).2).products
      = ((add_sale none date customer_id (A ++ [⟨pid, q1 + q2, pr3⟩] ++ B)
          total_amount cash_received previous_credit updated_credit notes
          transaction_type st).2).products
    ∧ ((add_sale none date customer_id (A ++ [⟨pid, q1, pr1⟩, ⟨pid, q2, pr2⟩] ++ B)
        total_amount cash_received previous_credit updated_credit notes
        transaction_type st).2).daily_stock
      = ((add_sale none date customer_id (A ++ [⟨pid, q1 + q2, pr3⟩] ++ B)
          total_amount cash_received previous_credit updated_credit notes
          transaction_type st).2).daily_stock
    ∧ ((add_sale none date customer_id (A ++ [⟨pid, q1, pr1⟩, ⟨pid, q2, pr2⟩] ++ B)
        total_amount cash_received previous_credit updated_credit notes
        transaction_type st).2).customers
      = ((add_sale none date customer_id (A ++ [⟨pid, q1 + q2, pr3⟩] ++ B)
          total_amount cash_received previous_credit updated_credit notes
          transaction_type st).2).customers
    ∧ ((add_sale none date customer_id (A ++ [⟨pid, q1, pr1⟩, ⟨pid, q2, pr2⟩] ++ B)
        total_amount cash_received previous_credit updated_credit notes
        transaction_type st).2).transactions
      = ((add_sale none date customer_id (A ++ [⟨pid, q1 + q2, pr3⟩] ++ B)
          total_amount cash_received previous_credit updated_credit notes
          transaction_type st).2).transactions := by
  set st1 := insertTransactionHeader date customer_id transaction_type
    total_amount cash_received previous_credit updated_credit notes st with hst1
  have hids : (A.foldl (applyItemStock date transaction_type st.next_transaction_id)
      st1).products.map (fun p => p.id) = st.products.map (fun p => p.id) := by
    rw [foldl_applyItemStock_products_ids, hst1]
    rfl
  have hmemA : pid ∈ (A.foldl (applyItemStock date transaction_type
      st.next_transaction_id) st1).products.map (fun p => p.id) := by
    rw [hids]
    exact hmem
  have hfold2 : ∀ X : List SaleItem,
      (add_sale none date customer_id (A ++ X ++ B) total_amount cash_received
        previous_credit updated_credit notes transaction_type st).2
      = updateCustomerCredit customer_id updated_credit
          (B.foldl (applyItemStock date transaction_type st.next_transaction_id)
            (X.foldl (applyItemStock date transaction_type st.next_transaction_id)
              (A.foldl (applyItemStock date transaction_type st.next_transaction_id)
                st1))) := by
    intro X
    show updateCustomerCredit customer_id updated_credit
        ((A ++ X ++ B).foldl (applyItemStock date transaction_type
          st.next_transaction_id) st1) = _
    rw [List.append_assoc, List.foldl_append, List.foldl_append]
  rw [hfold2, hfold2]
  have hpairp := pair_products date transaction_type st.next_transaction_id
    (A.foldl (applyItemStock date transaction_type st.next_transaction_id) st1)
    pid q1 q2 pr1 pr2 pr3 hmemA
  have hpaird := pair_daily date transaction_type st.next_transaction_id
    (A.foldl (applyItemStock date transaction_type st.next_transaction_id) st1)
    pid q1 q2 pr1 pr2 pr3 hmemA
  have hXfold : ([⟨pid, q1, pr1⟩, ⟨pid, q2, pr2⟩] : List SaleItem).foldl
      (applyItemStock date transaction_type st.next_transaction_id)
      (A.foldl (applyItemStock date transaction_type st.next_transaction_id) st1)
      = applyItemStock date transaction_type st.next_transaction_id
          (applyItemStock date transaction_type st.next_transaction_id
            (A.foldl (applyItemStock date transaction_type st.next_transaction_id)
              st1) ⟨pid, q1, pr1⟩) ⟨pid, q2, pr2⟩ := rfl
  have hXfold1 : ([⟨pid, q1 + q2, pr3⟩] : List SaleItem).foldl
      (applyItemStock date transaction_type st.next_transaction_id)
      (A.foldl (applyItemStock date transaction_type st.next_transaction_id) st1)
      = applyItemStock date transaction_type st.next_transaction_id
          (A.foldl (applyItemStock date transaction_type st.next_transaction_id)
            st1) ⟨pid, q1 + q2, pr3⟩ := rfl
  rw [hXfold, hXfold1]
  obtain ⟨hBp, hBd⟩ := foldl_applyItemStock_congr date transaction_type
    st.next_transaction_id st.next_transaction_id B hpairp hpaird
  refine ⟨hBp, hBd, ?_, ?_⟩
  · show (B.foldl (applyItemStock date transaction_type st.next_transaction_id)
        _).customers.map (setCreditRow customer_id updated_credit)
      = (B.foldl (applyItemStock date transaction_type st.next_transaction_id)
        _).customers.map (setCreditRow customer_id updated_credit)
    simp only [foldl_applyItemStock_customers, applyItemStock_customers]
  · show (B.foldl (applyItemStock date transaction_type st.next_transaction_id)
        _).transactions
      = (B.foldl (applyItemStock date transaction_type st.next_transaction_id)
        _).transactions
    simp only [foldl_applyItemStock_transactions, applyItemStock_transactions]

/-- Evaluation witness for the duplicate-line claim: selling 2 then 3 units of
product 1 equals selling 5 units at once, on the sample state. -/
theorem duplicate_product_lines_witness :
    (1 : Nat) ∈ sampleState.products.map (fun p => p.id)
    ∧ ((add_sale none "D" 1 ([] ++ [⟨1, (2 : ℚ), 50⟩, ⟨1, (3 : ℚ), 50⟩] ++ [])
        250 200 100 150 "" "sale" sampleState).2).products
      = ((add_sale none "D" 1 ([] ++ [⟨1, (2 : ℚ) + 3, 50⟩] ++ [])
          250 200 100 150 "" "sale" sampleState).2).products :=
  ⟨by decide,
   (duplicate_product_lines "D" 1 [] [] 1 2 3 50 50 50 250 200 100 150 "" "sale"
      sampleState (by decide)).1⟩

/-! ### The daily snapshot invariant under sequences of calls -/

/-- Finding a product by id commutes with a stock rewrite. -/
theorem find?_id_map_setStockRow (l : List Product) (target : Nat) (ns : ℚ)
    (pid : Nat) :
    (l.map (setStockRow target ns)).find? (fun p => p.id == pid)
      = (l.find? (fun p => p.id == pid)).map (setStockRow target ns) := by
  have hpred : ((fun p => p.id == pid) ∘ setStockRow target ns)
      = fun p => p.id == pid := by
    funext p
    simp [Function.comp]
  rw [List.find?_map, hpred]

/-- One item iteration does not change the running stock of any other
product. -/
theorem stockOf_applyItemStock_other (d ty : String) (tid : Nat) (st : DBState)
    (it : SaleItem) (pid : Nat) (hne : it.product_id ≠ pid) :
    stockOf (applyItemStock d ty tid st it) pid = stockOf st pid := by
  have hprod := applyItemStock_products_eq d ty tid st it
  unfold stockOf
  rw [hprod, find?_id_map_setStockRow]
  cases hf : st.products.find? (fun p => p.id == pid) with
  | none => rfl
  | some p1 =>
    have hp1 : p1.id = pid := by simpa using List.find?_some hf
    have hnot : ¬p1.id = it.product_id := by
      rw [hp1]
      exact fun hh => hne hh.symm
    simp [setStockRow, hnot]

/-- One item iteration on its own product's running stock. -/
theorem stockOf_applyItemStock_self (d ty : String) (tid : Nat) (st : DBState)
    (it : SaleItem) (hmem : it.product_id ∈ st.products.map (fun p => p.id)) :
    stockOf (applyItemStock d ty tid st it) it.product_id
      = stockOf st it.product_id + quantityChange ty it.quantity := by
  rw [stockOf_applyItemStock d ty tid st it it.product_id hmem, if_pos rfl]

/-- `StockSync` is preserved when the item iteration inserts a fresh daily
row whose key is `(d, it.product_id)`, whose `closing_stock` is the new
running stock, and which satisfies the snapshot invariant. -/
theorem StockSync_insert_case (d ty : String) (tid : Nat) (st : DBState)
    (it : SaleItem) (huniq : DailyKeysUnique st.daily_stock)
    (hrows : ∀ r ∈ st.daily_stock, r.date = d →
      (r.closing_stock = stockOf st r.product_id ∧
       r.closing_stock = r.opening_stock + r.purchases - r.sales + r.adjustments))
    (hmem : it.product_id ∈ st.products.map (fun p => p.id))
    (hnomatch : ∀ r ∈ st.daily_stock,
      ¬(r.date == d && r.product_id == it.product_id) = true)
    (newRow : DailyStockRow)
    (hDrow : (applyItemStock d ty tid st it).daily_stock
      = st.daily_stock ++ [newRow])
    (hdate : newRow.date = d) (hpidrow : newRow.product_id = it.product_id)
    (hclose : newRow.closing_stock
      = stockOf st it.product_id + quantityChange ty it.quantity)
    (hinv : newRow.closing_stock = newRow.opening_stock + newRow.purchases
      - newRow.sales + newRow.adjustments) :
    StockSync d (applyItemStock d ty tid st it) := by
  constructor
  · rw [hDrow]
    intro r1 h1 r2 h2 hdate12 hpid12
    rcases List.mem_append.1 h1 with h1o | h1n
    · rcases List.mem_append.1 h2 with h2o | h2n
      · exact huniq r1 h1o r2 h2o hdate12 hpid12
      · exfalso
        rw [List.mem_singleton.1 h2n] at hdate12 hpid12
        exact hnomatch r1 h1o
          (by simp [hdate12.trans hdate, hpid12.trans hpidrow])
    · rcases List.mem_append.1 h2 with h2o | h2n
      · exfalso
        rw [List.mem_singleton.1 h1n] at hdate12 hpid12
        exact hnomatch r2 h2o
          (by simp [(hdate12.symm.trans hdate), (hpid12.symm.trans hpidrow)])
      · rw [List.mem_singleton.1 h1n, List.mem_singleton.1 h2n]
  · intro r hr hrdate
    rw [hDrow] at hr
    rcases List.mem_append.1 hr with hro | hrn
    · have hne : r.product_id ≠ it.product_id := by
        intro hh
        exact hnomatch r hro (by simp [hrdate, hh])
      have hs := stockOf_applyItemStock_other d ty tid st it r.product_id
        (fun hh => hne hh.symm)
      obtain ⟨hc1, hc2⟩ := hrows r hro hrdate
      exact ⟨by rw [hs]; exact hc1, hc2⟩
    · rw [List.mem_singleton.1 hrn]
      refine ⟨?_, hinv⟩
      rw [hclose, hpidrow, stockOf_applyItemStock_self d ty tid st it hmem]

/-- `StockSync` is preserved when the item iteration rewrites the daily rows
with a key-preserving function `f` that leaves rows of other keys alone and
sends the fetched row to one with the new running stock as `closing_stock`,
satisfying the snapshot invariant. -/
theorem StockSync_update_case (d ty : String) (tid : Nat) (st : DBState)
    (it : SaleItem) (huniq : DailyKeysUnique st.daily_stock)
    (hrows : ∀ r ∈ st.daily_stock, r.date = d →
      (r.closing_stock = stockOf st r.product_id ∧
       r.closing_stock = r.opening_stock + r.purchases - r.sales + r.adjustments))
    (hmem : it.product_id ∈ st.products.map (fun p => p.id))
    (row0 : DailyStockRow)
    (hf : st.daily_stock.find?
      (fun r => r.date == d && r.product_id == it.product_id) = some row0)
    (f : DailyStockRow → DailyStockRow)
    (hDrow : (applyItemStock d ty tid st it).daily_stock = st.daily_stock.map f)
    (hfkey : ∀ r, (f r).date = r.date ∧ (f r).product_id = r.product_id)
    (hfnot : ∀ r, ¬(r.date == d && r.product_id == it.product_id) = true → f r = r)
    (hfrow0close : (f row0).closing_stock
      = stockOf st it.product_id + quantityChange ty it.quantity)
    (hfrow0inv : (f row0).closing_stock = (f row0).opening_stock
      + (f row0).purchases - (f row0).sales + (f row0).adjustments) :
    StockSync d (applyItemStock d ty tid st it) := by
  have hrow0mem : row0 ∈ st.daily_stock := List.mem_of_find?_eq_some hf
  have hrow0p : (row0.date == d && row0.product_id == it.product_id) = true := by
    simpa using List.find?_some hf
  have hrow0date : row0.date = d := by
    have := hrow0p
    simp at this
    exact this.1
  have hrow0pid : row0.product_id = it.product_id := by
    have := hrow0p
    simp at this
    exact this.2
  constructor
  · rw [hDrow]
    intro r1 h1 r2 h2 hdate12 hpid12
    obtain ⟨s1, hs1, rfl⟩ := List.mem_map.1 h1
    obtain ⟨s2, hs2, rfl⟩ := List.mem_map.1 h2
    rw [(hfkey s1).1, (hfkey s2).1] at hdate12
    rw [(hfkey s1).2, (hfkey s2).2] at hpid12
    rw [huniq s1 hs1 s2 hs2 hdate12 hpid12]
  · intro r hr hrdate
    rw [hDrow] at hr
    obtain ⟨s, hsmem, rfl⟩ := List.mem_map.1 hr
    by_cases hm : (s.date == d && s.product_id == it.product_id) = true
    · have hs0 : s = row0 := by
        have h1 : s.date = d ∧ s.product_id = it.product_id := by
          simpa using hm
        exact huniq s hsmem row0 hrow0mem (h1.1.trans hrow0date.symm)
          (h1.2.trans hrow0pid.symm)
      rw [hs0]
      refine ⟨?_, hfrow0inv⟩
      rw [hfrow0close, (hfkey row0).2, hrow0pid,
        stockOf_applyItemStock_self d ty tid st it hmem]
    · rw [hfnot s hm] at hrdate ⊢
      have hne : s.product_id ≠ it.product_id := by
        intro hh
        exact hm (by simp [hrdate, hh])
      have hs := stockOf_applyItemStock_other d ty tid st it s.product_id
        (fun hh => hne hh.symm)
      obtain ⟨hc1, hc2⟩ := hrows s hsmem hrdate
      exact ⟨by rw [hs]; exact hc1, hc2⟩

/-- One item iteration preserves the single-date sync invariant, provided its
product exists. -/
theorem applyItemStock_StockSync (d ty : String) (tid : Nat) (st : DBState)
    (it : SaleItem) (hsync : StockSync d st)
    (hmem : it.product_id ∈ st.products.map (fun p => p.id)) :
    StockSync d (applyItemStock d ty tid st it) := by
  obtain ⟨huniq, hrows⟩ := hsync
  have hdaily := applyItemStock_daily_eq d ty tid st it
  cases hf : st.daily_stock.find?
      (fun r => r.date == d && r.product_id == it.product_id) with
  | none =>
    have hnomatch := List.find?_eq_none.1 hf
    by_cases hty : ty = "sale"
    · subst hty
      refine StockSync_insert_case d "sale" tid st it huniq hrows hmem hnomatch
        ⟨d, it.product_id, stockOf st it.product_id, 0, it.quantity, 0,
          stockOf st it.product_id + quantityChange "sale" it.quantity⟩
        ?_ rfl rfl rfl ?_
      · rw [hdaily, dailyUpsert_sale_none d it _ _ hf]
      · dsimp only
        simp [quantityChange]
        ring
    · refine StockSync_insert_case d ty tid st it huniq hrows hmem hnomatch
        ⟨d, it.product_id, stockOf st it.product_id, it.quantity, 0, 0,
          stockOf st it.product_id + quantityChange ty it.quantity⟩
        ?_ rfl rfl rfl ?_
      · rw [hdaily, dailyUpsert_other_none d ty hty it _ _ hf]
      · dsimp only
        simp [quantityChange, hty]
  | some row0 =>
    have hrow0mem : row0 ∈ st.daily_stock := List.mem_of_find?_eq_some hf
    have hkey : row0.date = d ∧ row0.product_id = it.product_id := by
      simpa using List.find?_some hf
    have hcond : (row0.date == d && row0.product_id == it.product_id) = true := by
      simp [hkey.1, hkey.2]
    have hsync0 := hrows row0 hrow0mem hkey.1
    have hcs : row0.closing_stock = stockOf st it.product_id := by
      rw [← hkey.2]
      exact hsync0.1
    by_cases hty : ty = "sale"
    · subst hty
      refine StockSync_update_case d "sale" tid st it huniq hrows hmem row0 hf
        (setSalesRow d it.product_id (row0.sales + it.quantity)
          (stockOf st it.product_id + quantityChange "sale" it.quantity))
        ?_
        (fun r => ⟨setSalesRow_date _ _ _ _ r, setSalesRow_product_id _ _ _ _ r⟩)
        (fun r hm => setSalesRow_not_matching hm) ?_ ?_
      · rw [hdaily, dailyUpsert_sale_some d it _ _ row0 hf]
      · rw [setSalesRow_matching hcond]
      · rw [setSalesRow_matching hcond]
        dsimp only
        have hinv0 := hsync0.2
        rw [← hcs]
        simp [quantityChange]
        linarith
    · refine StockSync_update_case d ty tid st it huniq hrows hmem row0 hf
        (setPurchasesRow d it.product_id (row0.purchases + it.quantity)
          (stockOf st it.product_id + quantityChange ty it.quantity))
        ?_
        (fun r => ⟨setPurchasesRow_date _ _ _ _ r, setPurchasesRow_product_id _ _ _ _ r⟩)
        (fun r hm => setPurchasesRow_not_matching hm) ?_ ?_
      · rw [hdaily, dailyUpsert_other_some d ty hty it _ _ row0 hf]
      · rw [setPurchasesRow_matching hcond]
      · rw [setPurchasesRow_matching hcond]
        dsimp only
        have hinv0 := hsync0.2
        rw [← hcs]
        simp [quantityChange, hty]
        linarith

/-- `StockSync` only looks at the `products` and `daily_stock` columns. -/
theorem StockSync_of_eq {st1 st2 : DBState} (hp : st1.products = st2.products)
    (hd : st1.daily_stock = st2.daily_stock) (d : String)
    (h : StockSync d st1) : StockSync d st2 := by
  obtain ⟨hu, hr⟩ := h
  constructor
  · rw [← hd]
    exact hu
  · intro r hrm hrd
    rw [← hd] at hrm
    obtain ⟨h1, h2⟩ := hr r hrm hrd
    exact ⟨h1.trans (stockOf_congr hp.symm r.product_id).symm, h2⟩

/-- The item loop preserves the single-date sync invariant. -/
theorem foldl_applyItemStock_StockSync (d ty : String) (tid : Nat)
    (items : List SaleItem) (st : DBState) (hsync : StockSync d st)
    (hmem : ∀ it ∈ items, it.product_id ∈ st.products.map (fun p => p.id)) :
    StockSync d (items.foldl (applyItemStock d ty tid) st) := by
  induction items generalizing st with
  | nil => exact hsync
  | cons it rest ih =>
    rw [List.foldl_cons]
    refine ih _ (applyItemStock_StockSync d ty tid st it hsync (hmem it (by simp))) ?_
    intro it' hit'
    rw [applyItemStock_products_ids]
    exact hmem it' (by simp [hit'])

/-- One fault-free `add_sale` call on the sync date preserves the sync
invariant, provided each referenced product exists. -/
theorem add_sale_StockSync (d : String) (c : SaleCall) (st : DBState)
    (hsync : StockSync d st)
    (hmem : ∀ it ∈ c.items, it.product_id ∈ st.products.map (fun p => p.id)) :
    StockSync d (add_sale none d c.customer_id c.items c.total_amount
      c.cash_received c.previous_credit c.updated_credit c.notes
      c.transaction_type st).2 := by
  have h1 : StockSync d (insertTransactionHeader d c.customer_id
      c.transaction_type c.total_amount c.cash_received c.previous_credit
      c.updated_credit c.notes st) := StockSync_of_eq rfl rfl d hsync
  have h2 := foldl_applyItemStock_StockSync d c.transaction_type
    st.next_transaction_id c.items _ h1 hmem
  exact StockSync_of_eq rfl rfl d h2

/-- A fault-free `add_sale` call does not change the set of product ids. -/
theorem add_sale_products_ids (date : String)
    (customer_id : Nat) (items : List SaleItem)
    (total_amount cash_received previous_credit updated_credit : ℚ)
    (notes transaction_type : String) (st : DBState) :
    ((add_sale none date customer_id items total_amount cash_received
      previous_credit updated_credit notes transaction_type st).2).products.map
        (fun p => p.id)
      = st.products.map (fun p => p.id) := by
  show ((items.foldl (applyItemStock date transaction_type
      st.next_transaction_id) (insertTransactionHeader date customer_id
        transaction_type total_amount cash_received previous_credit
        updated_credit notes st)).products).map (fun p => p.id)
    = st.products.map (fun p => p.id)
  rw [foldl_applyItemStock_products_ids]
  rfl

/-- A single-date sequence of fault-free calls preserves the sync invariant. -/
theorem runCalls_StockSync (d : String) (calls : List SaleCall) (st : DBState)
    (hsync : StockSync d st)
    (hmem : ∀ c ∈ calls, ∀ it ∈ c.items,
      it.product_id ∈ st.products.map (fun p => p.id)) :
    StockSync d (runCalls d calls st) := by
  induction calls generalizing st with
  | nil => exact hsync
  | cons c rest ih =>
    have hstep : runCalls d (c :: rest) st
        = runCalls d rest ((add_sale none d c.customer_id c.items c.total_amount
            c.cash_received c.previous_credit c.updated_credit c.notes
            c.transaction_type st).2) := rfl
    rw [hstep]
    refine ih _ (add_sale_StockSync d c st hsync (hmem c (by simp))) ?_
    intro c' hc' it' hit'
    rw [add_sale_products_ids]
    exact hmem c' (by simp [hc']) it' hit'

/-- Claim C5 as amended: after every call of a sequence of fault-free
`add_sale` calls that all carry the same date, every `daily_stock` row of that
date satisfies `closing_stock = opening_stock + purchases - sales +
adjustments`, provided the starting state is in sync for that date (e.g. has
no rows of that date yet), its daily keys are unique, and every referenced
product exists.  (Across different dates the invariant can break; see the
counterexample.) -/
theorem daily_snapshot_invariant (d : String) (calls : List SaleCall)
    (st : DBState) (hsync : StockSync d st)
    (hmem : ∀ c ∈ calls, ∀ it ∈ c.items,
      it.product_id ∈ st.products.map (fun p => p.id)) :
    ∀ n, DailyInvariant d (runCalls d (calls.take n) st).daily_stock := by
  intro n
  have hmem' : ∀ c ∈ calls.take n, ∀ it ∈ c.items,
      it.product_id ∈ st.products.map (fun p => p.id) :=
    fun c hc => hmem c (List.take_subset n calls hc)
  have h := runCalls_StockSync d (calls.take n) st hsync hmem'
  intro r hr hrd
  exact (h.2 r hr hrd).2

/-- The daily rows after the three calls: the `"D1"` row has absorbed the
`"D2"` purchase into its `closing_stock`. -/
theorem c5State3_daily :
    c5State3.daily_stock
      = [⟨"D1", 1, 10, 0, 2, 0, 13⟩, ⟨"D2", 1, 9, 5, 0, 0, 14⟩] := by
  simp [c5State3, c5State2, c5State1, c5State0, add_sale, add_sale_effects,
    applyItemStock, upsertDailyStock, dailyUpsert, insertStockMovement,
    insertTransactionItem, insertTransactionHeader, updateProductStock,
    updateCustomerCredit, setSalesRow, setPurchasesRow, setStockRow,
    setCreditRow, stockOf, quantityChange, itemRow, movementRow, headerRow]
  norm_num

/-- Claim C5, counterexample: three successful `add_sale` calls (sale on
`"D1"`, purchase on `"D2"`, sale on `"D1"` again), with the `"D1"` movements
applied in call order, leave the `("D1", 1)` row with `closing_stock = 13` but
`opening + purchases - sales + adjustments = 8`. -/
theorem daily_snapshot_invariant_cex :
    (add_sale none "D1" 1 [⟨1, 1, 1⟩] 1 1 0 0 "" "sale" c5State0).1 = some 1
    ∧ (add_sale none "D2" 1 [⟨1, 5, 1⟩] 5 5 0 0 "" "purchase" c5State1).1 = some 2
    ∧ (add_sale none "D1" 1 [⟨1, 1, 1⟩] 1 1 0 0 "" "sale" c5State2).1 = some 3
    ∧ (⟨"D1", 1, 10, 0, 2, 0, 13⟩ : DailyStockRow) ∈ c5State3.daily_stock
    ∧ ¬ DailyInvariant "D1" c5State3.daily_stock := by
  refine ⟨rfl, rfl, rfl, ?_, ?_⟩
  · rw [c5State3_daily]
    simp
  · intro h
    have := h ⟨"D1", 1, 10, 0, 2, 0, 13⟩ (by rw [c5State3_daily]; simp) rfl
    norm_num at this

/-- Evaluation witness for the amended snapshot-invariant claim on the sample
state. -/
theorem daily_snapshot_invariant_witness :
    StockSync "D" sampleState
    ∧ (∀ c ∈ [c5WitnessCall], ∀ it ∈ c.items,
        it.product_id ∈ sampleState.products.map (fun p => p.id))
    ∧ ∀ n, DailyInvariant "D"
        (runCalls "D" ([c5WitnessCall].take n) sampleState).daily_stock := by
  have hsync : StockSync "D" sampleState := by
    constructor
    · intro r1 h1
      simp [sampleState] at h1
    · intro r h1
      simp [sampleState] at h1
  have hmem : ∀ c ∈ [c5WitnessCall], ∀ it ∈ c.items,
      it.product_id ∈ sampleState.products.map (fun p => p.id) := by
    intro c hc it hit
    rw [List.mem_singleton.1 hc] at hit
    simp [c5WitnessCall] at hit
    rw [hit]
    simp [sampleState]
  exact ⟨hsync, hmem,
    daily_snapshot_invariant "D" [c5WitnessCall] sampleState hsync hmem⟩

/-- Evaluation witness for the daily-stock upsert, exercising both the
create branch (empty sample state) and the update branch (a state with an
existing `("D", 1)` row). -/
theorem upsertDailyStock_spec_witness :
    (sampleState.daily_stock.find?
        (fun r => r.date == "D" && r.product_id == (⟨1, (5 : ℚ), 50⟩ : SaleItem).product_id)
      = none
    ∧ (upsertDailyStock "D" "sale" ⟨1, (5 : ℚ), 50⟩ sampleState).daily_stock
        = sampleState.daily_stock ++
            [⟨"D", 1, stockOf sampleState 1, 0, 5, 0, stockOf sampleState 1 - 5⟩])
    ∧ (sampleStateWithDaily.daily_stock.find?
        (fun r => r.date == "D" && r.product_id == (⟨1, (5 : ℚ), 50⟩ : SaleItem).product_id)
      = some ⟨"D", 1, 20, 10, 0, 0, 30⟩
    ∧ (upsertDailyStock "D" "sale" ⟨1, (5 : ℚ), 50⟩ sampleStateWithDaily).daily_stock
        = sampleStateWithDaily.daily_stock.map (setSalesRow "D" 1
            ((0 : ℚ) + 5) (stockOf sampleStateWithDaily 1 - 5))) :=
  ⟨⟨by decide,
    ((upsertDailyStock_spec "D" ⟨1, (5 : ℚ), 50⟩ sampleState).1 (by decide)).1⟩,
   ⟨by decide,
    ((upsertDailyStock_spec "D" ⟨1, (5 : ℚ), 50⟩ sampleStateWithDaily).2
      ⟨"D", 1, 20, 10, 0, 0, 30⟩ (by decide)).1⟩⟩

/-! ### Valuation: primary path versus movement fallback -/

/-- A guarded `filterMap` is a `filterMap` after a `filter`. -/
theorem filterMap_bool_guard {α β : Type _} (l : List α) (q : α → Bool)
    (f : α → Option β) :
    (l.filterMap fun a => if q a then f a else none) = (l.filter q).filterMap f := by
  induction l with
  | nil => rfl
  | cons a t ih =>
    cases hq : q a <;> simp [List.filterMap_cons, List.filter_cons, hq, ih]

/-- With globally unique product ids, looking a member product up by its own
id finds exactly it. -/
theorem find?_eq_self_of_nodup (l : List Product)
    (hnodup : (l.map (fun p => p.id)).Nodup) (p : Product) (hp : p ∈ l)
    (pid : Nat) (hpid : p.id = pid) :
    l.find? (fun x => x.id == pid) = some p := by
  induction l with
  | nil => cases hp
  | cons a t ih =>
    rw [List.map_cons, List.nodup_cons] at hnodup
    rcases List.mem_cons.1 hp with rfl | hpt
    · rw [List.find?_cons_of_pos]
      simp [hpid]
    · have hne : ¬((fun x : Product => x.id == pid) a) = true := by
        simp only [beq_iff_eq]
        intro hh
        exact hnodup.1 (by
          rw [hh, ← hpid]
          exact List.mem_map_of_mem _ hpt)
      have hstep : List.find? (fun x : Product => x.id == pid) (a :: t)
          = List.find? (fun x => x.id == pid) t :=
        List.find?_cons_of_neg t hne
      rw [hstep]
      exact ih hnodup.2 hpt

/-- The primary path, restated as a join over the rows of the requested
date. -/
theorem primaryInventoryLines_eq_filter (st : DBState) (date : String) :
    primaryInventoryLines st date
      = (st.daily_stock.filter (fun r => r.date == date)).filterMap (fun r =>
          (st.products.find? (fun p => p.id == r.product_id)).map (primaryLine r)) :=
  filterMap_bool_guard st.daily_stock _ _

/-- Under alignment and movement-consistency of the daily rows, the primary
join over the date's rows equals the fallback's per-active-product lines. -/
theorem aligned_primary_eq_fallback (st : DBState) (D : String)
    (hnodup : (st.products.map (fun p => p.id)).Nodup) :
    ∀ (rows : List DailyStockRow) (acts : List Product),
      (∀ p ∈ acts, p ∈ st.products) →
      rows.map (fun r => r.product_id) = acts.map (fun p => p.id) →
      (∀ r ∈ rows, ∀ p ∈ st.products, p.id = r.product_id →
        (r.purchases = movementPurchases st.stock_movements D p.id
         ∧ r.sales = movementSales st.stock_movements D p.id
         ∧ r.adjustments = movementAdjustments st.stock_movements D p.id
         ∧ r.closing_stock = p.current_stock
         ∧ r.opening_stock
            = r.closing_stock - (r.purchases - r.sales + r.adjustments))) →
      rows.filterMap (fun r =>
          (st.products.find? (fun p => p.id == r.product_id)).map (primaryLine r))
        = acts.map (fallbackInventoryLine st.stock_movements D) := by
  intro rows
  induction rows with
  | nil =>
    intro acts hsub halign hcons
    rw [List.map_nil] at halign
    rw [(List.map_eq_nil_iff.1 halign.symm)]
    rfl
  | cons r rows ih =>
    intro acts hsub halign hcons
    cases acts with
    | nil => simp at halign
    | cons p acts =>
      rw [List.map_cons, List.map_cons] at halign
      have hhead : r.product_id = p.id := by
        have := congrArg (fun l => l.headI) halign
        simpa using this
      have htail : rows.map (fun r => r.product_id) = acts.map (fun p => p.id) := by
        have := congrArg (fun l => l.tail) halign
        simpa using this
      have hpmem : p ∈ st.products := hsub p (by simp)
      have hfind : st.products.find? (fun x => x.id == r.product_id) = some p :=
        find?_eq_self_of_nodup st.products hnodup p hpmem r.product_id hhead.symm
      rw [List.filterMap_cons, hfind]
      obtain ⟨h1, h2, h3, h4, h5⟩ := hcons r (by simp) p hpmem hhead.symm
      have hline : primaryLine r p = fallbackInventoryLine st.stock_movements D p := by
        unfold primaryLine fallbackInventoryLine
        dsimp only
        rw [h5, h1, h2, h3, h4, hhead]
      rw [List.map_cons, Option.map_some']
      rw [hline]
      rw [ih acts (fun p' hp' => hsub p' (by simp [hp'])) htail
        (fun r' hr' => hcons r' (by simp [hr']))]

/-- Claim C6 as amended: (1) when every active product has a `daily_stock`
row for the date, aligned in cursor order, with accumulators matching the
date's movement sums and `closing_stock` equal to the product's current stock
(which is what holding rows only for the most recent movement date gives),
the report computed from the rows equals the report the movement fallback
computes once the rows are absent; (2) for an earlier date with movements
after it, the fallback reconstructs an `opening_stock` of 9 where the true
daily row records 10. -/
theorem inventory_fallback_boundary :
    (∀ (st : DBState) (D : String),
      (st.products.map (fun p => p.id)).Nodup →
      (st.daily_stock.filter (fun r => r.date == D)).map (fun r => r.product_id)
        = (st.products.filter (fun p => p.active)).map (fun p => p.id) →
      (∀ r ∈ st.daily_stock, r.date = D → ∀ p ∈ st.products,
        p.id = r.product_id →
        (r.purchases = movementPurchases st.stock_movements D p.id
         ∧ r.sales = movementSales st.stock_movements D p.id
         ∧ r.adjustments = movementAdjustments st.stock_movements D p.id
         ∧ r.closing_stock = p.current_stock
         ∧ r.opening_stock
            = r.closing_stock - (r.purchases - r.sales + r.adjustments))) →
      calculate_daily_inventory st D
        = calculate_daily_inventory { st with daily_stock := [] } D)
    ∧ ((calculate_daily_inventory { c6EarlyState with daily_stock := [] }
          "D1").products.map (fun l => l.opening_stock) = [9]
    ∧ (c6EarlyState.daily_stock.filter (fun r => r.date == "D1")).map
        (fun r => r.opening_stock) = [10]) := by
  constructor
  · intro st D hnodup halign hcons
    have hprim : primaryInventoryLines st D = fallbackInventoryLines st D := by
      rw [primaryInventoryLines_eq_filter]
      unfold fallbackInventoryLines
      refine aligned_primary_eq_fallback st D hnodup _ _
        (fun p hp => List.mem_of_mem_filter hp) halign ?_
      intro r hr p hp hpid
      obtain ⟨hrmem, hrd⟩ := List.mem_filter.1 hr
      exact hcons r hrmem (by simpa using hrd) p hp hpid
    have hstrip : primaryInventoryLines { st with daily_stock := [] } D = [] := rfl
    have hfb : fallbackInventoryLines { st with daily_stock := [] } D
        = fallbackInventoryLines st D := rfl
    simp only [calculate_daily_inventory, hprim, hstrip, hfb, List.isEmpty_nil,
      if_true, ite_self]
  · constructor
    · simp [calculate_daily_inventory, primaryInventoryLines, primaryLine,
        fallbackInventoryLines, fallbackInventoryLine, movementPurchases,
        movementSales, movementAdjustments, c6EarlyState]
      norm_num
    · simp [c6EarlyState]

/-- Claim C6, counterexample: `"D"` is the most recent (indeed only) movement
date, yet the fallback report differs from the primary one — the fallback
adds a zero-activity line for the untouched product B, inflating
`total_opening_value` from 10 to 20. -/
theorem inventory_fallback_cex :
    (∀ m ∈ c6StateWith.stock_movements, m.date = "D")
    ∧ (calculate_daily_inventory c6StateWith "D").total_opening_value = 10
    ∧ (calculate_daily_inventory c6StateWithout "D").total_opening_value = 20
    ∧ calculate_daily_inventory c6StateWith "D"
        ≠ calculate_daily_inventory c6StateWithout "D" := by
  have h1 : (calculate_daily_inventory c6StateWith "D").total_opening_value = 10 := by
    simp [calculate_daily_inventory, primaryInventoryLines, primaryLine,
      c6StateWith]
  have h2 : (calculate_daily_inventory c6StateWithout "D").total_opening_value
      = 20 := by
    simp [calculate_daily_inventory, primaryInventoryLines, primaryLine,
      fallbackInventoryLines, fallbackInventoryLine, movementPurchases,
      movementSales, movementAdjustments, c6StateWithout, c6StateWith]
    norm_num
  refine ⟨?_, h1, h2, ?_⟩
  · intro m hm
    simp [c6StateWith] at hm
    rw [hm]
  · intro heq
    rw [heq, h2] at h1
    norm_num at h1

/-- Evaluation witness for the amended valuation-fallback claim on a state
where every active product has a consistent daily row for the date. -/
theorem inventory_fallback_boundary_witness :
    (c6GoodState.products.map (fun p => p.id)).Nodup
    ∧ calculate_daily_inventory c6GoodState "D"
        = calculate_daily_inventory { c6GoodState with daily_stock := [] } "D" := by
  have hcons : ∀ r ∈ c6GoodState.daily_stock, r.date = "D" →
      ∀ p ∈ c6GoodState.products, p.id = r.product_id →
      (r.purchases = movementPurchases c6GoodState.stock_movements "D" p.id
       ∧ r.sales = movementSales c6GoodState.stock_movements "D" p.id
       ∧ r.adjustments = movementAdjustments c6GoodState.stock_movements "D" p.id
       ∧ r.closing_stock = p.current_stock
       ∧ r.opening_stock
          = r.closing_stock - (r.purchases - r.sales + r.adjustments)) := by
    intro r hr hrd p hp hpid
    simp [c6GoodState] at hr hp
    rcases hr with rfl | rfl <;> rcases hp with rfl | rfl <;>
      simp_all [movementPurchases, movementSales, movementAdjustments,
        c6GoodState] <;> norm_num
  exact ⟨by decide,
    inventory_fallback_boundary.1 c6GoodState "D" (by decide) (by decide) hcons⟩

end EnhancedPos
